import Mathlib

/-!
Verification of the kube-SmartScheduler placement core.

The Go sources are shallowly embedded: Go strings are modelled as `List Char`
(`GoStr`, built from Lean string literals with `gs`); Go `map[string]T` values
are modelled as association lists whose list order stands for Go's unspecified
map-iteration order; Go `int` is modelled as `Int` (no overflow is ever
approached); the engine's Go `float64` arithmetic is modelled exactly as IEEE
754 binary64: `fround` rounds a rational to the nearest 53-bit-significand
dyadic with ties to even (the exponent range is never left on these inputs),
`f64div`/`f64mul` round the exact quotient and product, and `int(...)`
conversion is `goTruncToInt`, truncation toward zero; the reconciler's
percentage comparison, whose operands stay exactly representable, is kept as
exact rational arithmetic; fallible Go functions return `Except GoStr`.
-/

/-- Go strings, modelled as lists of characters. -/
abbrev GoStr := List Char

/-- Literal embedding of a Lean string into the Go-string model. -/
def gs (s : String) : GoStr := s.toList

/-- Whitespace class of Go `strings.TrimSpace` (the ASCII part; the higher
Unicode space classes never occur in these inputs). -/
def goIsSpace (c : Char) : Bool :=
  c = ' ' || c = '\t' || c = '\n' || c = '\r' || c = '\x0b' || c = '\x0c'

/-- Go `strings.TrimSpace`. -/
def goTrim (s : GoStr) : GoStr :=
  ((s.dropWhile goIsSpace).reverse.dropWhile goIsSpace).reverse

/-- Go `strings.Split` with a one-character separator: splits around every
occurrence of `sep`; the empty string yields `[[]]`. -/
def goSplit (s : GoStr) (sep : Char) : List GoStr :=
  match s with
  | [] => [[]]
  | c :: cs =>
    match goSplit cs sep with
    | [] => [[c]]
    | g :: gsRest =>
      if c = sep then [] :: g :: gsRest else (c :: g) :: gsRest

/-- Go `strings.HasPrefix`. -/
def goStartsWith : GoStr → GoStr → Bool
  | _, [] => true
  | [], _ :: _ => false
  | c :: cs, p :: ps => c = p && goStartsWith cs ps

/-- Go `strings.TrimPrefix` under a `HasPrefix` guard (the guarded uses in the
source always drop exactly the matched front). -/
def goDropFront (s : GoStr) (n : Nat) : GoStr := s.drop n

/-- Go `strings.Join` with separator `sep`. -/
def goJoin (sep : GoStr) : List GoStr → GoStr
  | [] => []
  | [x] => x
  | x :: y :: xs => x ++ sep ++ goJoin sep (y :: xs)

/-- Digit-string accumulator for `goAtoi`. -/
def digitsVal : List Char → Nat → Option Nat
  | [], acc => some acc
  | c :: cs, acc =>
    if '0' ≤ c && c ≤ '9' then digitsVal cs (acc * 10 + (c.toNat - '0'.toNat)) else none

/-- Go `strconv.Atoi`: optional sign followed by at least one digit
(int64 overflow is never approached by these inputs). -/
def goAtoi (s : GoStr) : Option Int :=
  match s with
  | [] => none
  | '+' :: rest => if rest = [] then none else (digitsVal rest 0).map Int.ofNat
  | '-' :: rest => if rest = [] then none else (digitsVal rest 0).map (fun n => -(n : Int))
  | l => (digitsVal l 0).map Int.ofNat

/-- Association-list model of Go `map[string]string`. -/
abbrev GoMap := List (GoStr × GoStr)

/-- Association-list model of Go `map[string]int`. -/
abbrev GoCounts := List (GoStr × Int)

/-- Go map assignment `m[k] = v`: replaces the value at an existing key in
place, otherwise appends the new entry. -/
def mapInsert (m : GoMap) (k v : GoStr) : GoMap :=
  match m with
  | [] => [(k, v)]
  | (k', v') :: rest => if k' = k then (k, v) :: rest else (k', v') :: mapInsert rest k v

/-- Go map read `m[k]` for `map[string]string` (zero value `""` when absent). -/
def mapGet : GoMap → GoStr → GoStr
  | [], _ => []
  | (k', v) :: rest, k => if k' = k then v else mapGet rest k

/-- Go map membership test `_, ok := m[k]`. -/
def mapHas : GoMap → GoStr → Bool
  | [], _ => false
  | (k', _) :: rest, k => if k' = k then true else mapHas rest k

/-- Go map read `m[k]` for `map[string]int` (zero value `0` when absent). -/
def countsGet : GoCounts → GoStr → Int
  | [], _ => 0
  | (k', v) :: rest, k => if k' = k then v else countsGet rest k

/-- Go map assignment for `map[string]int`. -/
def countsSet (m : GoCounts) (k : GoStr) (v : Int) : GoCounts :=
  match m with
  | [] => [(k, v)]
  | (k', v') :: rest => if k' = k then (k, v) :: rest else (k', v') :: countsSet rest k v

/-- Sum of all values of a `map[string]int` (`for _, count := range m`). -/
def countsTotal (m : GoCounts) : Int := (m.map (·.2)).sum

example : goAtoi (gs "123") = some 123 := by decide
example : goAtoi (gs "-7") = some (-7) := by decide
example : goAtoi (gs "abc") = none := by decide
example : goAtoi (gs "") = none := by decide
example : goSplit (gs "a;b;;c") ';' = [gs "a", gs "b", gs "", gs "c"] := by decide
example : goSplit (gs "garbage") ';' = [gs "garbage"] := by decide
example : goTrim (gs "  x ") = gs "x" := by decide
example : goStartsWith (gs "base=1") (gs "base=") = true := by decide
example : goDropFront (gs "base=1") 5 = gs "1" := by decide
example : goJoin (gs ",") [gs "a=1", gs "b=2"] = gs "a=1,b=2" := by decide

/-- Decidable equality for `Except`, used to evaluate the embedded functions
at concrete inputs. -/
instance {ε α : Type} [DecidableEq ε] [DecidableEq α] : DecidableEq (Except ε α) := fun a b =>
  match a, b with
  | .ok x, .ok y =>
    if h : x = y then .isTrue (by rw [h]) else .isFalse (by simp [h])
  | .error x, .error y =>
    if h : x = y then .isTrue (by rw [h]) else .isFalse (by simp [h])
  | .ok _, .error _ => .isFalse (by simp)
  | .error _, .ok _ => .isFalse (by simp)

/-! ### Data model (webhook/placement_strategy.go, enhanced version) -/

/-- AffinityRule represents pod affinity or anti-affinity configuration. -/
structure AffinityRule where
  type : GoStr
  labelSelector : GoMap
  topologyKey : GoStr
  requiredDuringScheduling : Bool
deriving DecidableEq

/-- PlacementRule represents a single placement rule with weight, node
selector, and affinity. -/
structure PlacementRule where
  weight : Int
  nodeSelector : GoMap
  affinity : List AffinityRule
deriving DecidableEq

/-- PlacementStrategy represents the complete placement strategy for a
workload. -/
structure PlacementStrategy where
  base : Int
  rules : List PlacementRule
deriving DecidableEq

/-! ### Strategy parser (`ParsePlacementStrategy` and helpers) -/

/-- Loop body of `parseNodeSelector`: fold the `key:value` pairs of a
`nodeSelector=` parameter into the rule's selector map. -/
def parseNodeSelectorLoop : List GoStr → GoMap → Except GoStr GoMap
  | [], sel => .ok sel
  | p :: ps, sel =>
    let p := goTrim p
    if p = [] then parseNodeSelectorLoop ps sel
    else
      match goSplit p ':' with
      | [k, v] =>
        let key := goTrim k
        let value := goTrim v
        if key = [] || value = [] then
          .error (gs "empty key or value in nodeSelector: " ++ p)
        else
          parseNodeSelectorLoop ps (mapInsert sel key value)
      | _ => .error (gs "invalid nodeSelector format, expected key:value, got: " ++ p)

/-- parseNodeSelector parses a `nodeSelector=` value (comma-separated
`key:value` pairs) into the rule's selector map; the final emptiness check is
on the whole map, as in the source. -/
def parseNodeSelector (s : GoStr) (sel : GoMap) : Except GoStr GoMap :=
  match parseNodeSelectorLoop (goSplit s ',') sel with
  | .error e => .error e
  | .ok sel' => if sel' = [] then .error (gs "no valid nodeSelector pairs found") else .ok sel'

/-- parseAffinityRule parses an `affinity=` or `anti-affinity=` parameter of
the form `labelKey:labelValue:topologyKey:scheduling`. -/
def parseAffinityRule (param : GoStr) : Except GoStr AffinityRule :=
  let aff := gs "affinity="
  let antiAff := gs "anti-affinity="
  let (affinityType, ruleStr) :=
    if goStartsWith param aff then (gs "affinity", goDropFront param aff.length)
    else (gs "anti-affinity", goDropFront param antiAff.length)
  match goSplit ruleStr ':' with
  | [p0, p1, p2, p3] =>
    let labelKey := goTrim p0
    let labelValue := goTrim p1
    let topologyKey := goTrim p2
    let scheduling := goTrim p3
    if labelKey = [] || labelValue = [] || topologyKey = [] then
      .error (gs "empty label key, value, or topology key in affinity rule: " ++ ruleStr)
    else if scheduling = gs "required" then
      .ok ⟨affinityType, [(labelKey, labelValue)], topologyKey, true⟩
    else if scheduling = gs "preferred" then
      .ok ⟨affinityType, [(labelKey, labelValue)], topologyKey, false⟩
    else
      .error (gs "invalid scheduling preference, must be required or preferred: " ++ scheduling)
  | _ => .error (gs "invalid affinity rule format: " ++ ruleStr)

/-- Loop body of `parseFirstRule`: fold the comma-separated parameters into
the running base count and first rule; parameters with no recognized
front-marker are silently skipped. -/
def parseFirstRuleLoop : List GoStr → Int → PlacementRule → Except GoStr (Int × PlacementRule)
  | [], b, r => .ok (b, r)
  | p :: ps, b, r =>
    let p := goTrim p
    if p = [] then parseFirstRuleLoop ps b r
    else if goStartsWith p (gs "base=") then
      match goAtoi (goDropFront p 5) with
      | none => .error (gs "invalid base count: " ++ goDropFront p 5)
      | some n => parseFirstRuleLoop ps n r
    else if goStartsWith p (gs "weight=") then
      match goAtoi (goDropFront p 7) with
      | none => .error (gs "invalid weight: " ++ goDropFront p 7)
      | some w => parseFirstRuleLoop ps b { r with weight := w }
    else if goStartsWith p (gs "nodeSelector=") then
      match parseNodeSelector (goDropFront p 13) r.nodeSelector with
      | .error e => .error (gs "invalid nodeSelector: " ++ e)
      | .ok sel => parseFirstRuleLoop ps b { r with nodeSelector := sel }
    else if goStartsWith p (gs "affinity=") || goStartsWith p (gs "anti-affinity=") then
      match parseAffinityRule p with
      | .error e => .error (gs "invalid affinity rule: " ++ e)
      | .ok a => parseFirstRuleLoop ps b { r with affinity := r.affinity ++ [a] }
    else parseFirstRuleLoop ps b r

/-- parseFirstRule parses the first semicolon part, which also carries the
`base=` count; returns the parsed base and the first rule. -/
def parseFirstRule (part : GoStr) : Except GoStr (Int × PlacementRule) :=
  parseFirstRuleLoop (goSplit part ',') 0 ⟨0, [], []⟩

/-- Loop body of `parseRule` (subsequent semicolon parts; no `base=`
handling). -/
def parseRuleLoop : List GoStr → PlacementRule → Except GoStr PlacementRule
  | [], r => .ok r
  | p :: ps, r =>
    let p := goTrim p
    if p = [] then parseRuleLoop ps r
    else if goStartsWith p (gs "weight=") then
      match goAtoi (goDropFront p 7) with
      | none => .error (gs "invalid weight: " ++ goDropFront p 7)
      | some w => parseRuleLoop ps { r with weight := w }
    else if goStartsWith p (gs "nodeSelector=") then
      match parseNodeSelector (goDropFront p 13) r.nodeSelector with
      | .error e => .error (gs "invalid nodeSelector: " ++ e)
      | .ok sel => parseRuleLoop ps { r with nodeSelector := sel }
    else if goStartsWith p (gs "affinity=") || goStartsWith p (gs "anti-affinity=") then
      match parseAffinityRule p with
      | .error e => .error (gs "invalid affinity rule: " ++ e)
      | .ok a => parseRuleLoop ps { r with affinity := r.affinity ++ [a] }
    else parseRuleLoop ps r

/-- parseRule parses a subsequent rule part. -/
def parseRule (part : GoStr) : Except GoStr PlacementRule :=
  parseRuleLoop (goSplit part ',') ⟨0, [], []⟩

/-- Loop of `ParsePlacementStrategy` over the semicolon-separated parts, with
the running part index (the index-0 part is parsed by `parseFirstRule`, empty
trimmed parts are skipped without advancing the rule handling). -/
def parseStrategyLoop : List GoStr → Nat → Int → List PlacementRule →
    Except GoStr (Int × List PlacementRule)
  | [], _, b, rs => .ok (b, rs)
  | p :: ps, i, b, rs =>
    let p := goTrim p
    if p = [] then parseStrategyLoop ps (i + 1) b rs
    else if i = 0 then
      match parseFirstRule p with
      | .error e => .error (gs "failed to parse first rule: " ++ e)
      | .ok (b', r) => parseStrategyLoop ps (i + 1) b' (rs ++ [r])
    else
      match parseRule p with
      | .error e => .error (gs "failed to parse rule: " ++ e)
      | .ok r => parseStrategyLoop ps (i + 1) b (rs ++ [r])

/-- ParsePlacementStrategy parses the scheduling annotation into a structured
strategy. -/
def ParsePlacementStrategy (annStr : GoStr) : Except GoStr PlacementStrategy :=
  if annStr = [] then .error (gs "empty annotation")
  else
    match parseStrategyLoop (goSplit annStr ';') 0 0 [] with
    | .error e => .error e
    | .ok (b, rs) =>
      if rs = [] then .error (gs "no placement rules found") else .ok ⟨b, rs⟩

example :
    ParsePlacementStrategy (gs "base=1,weight=1,nodeSelector=node-type:ondemand;weight=2,nodeSelector=node-type:spot") =
      .ok ⟨1, [⟨1, [(gs "node-type", gs "ondemand")], []⟩, ⟨2, [(gs "node-type", gs "spot")], []⟩]⟩ := by
  decide

example :
    ParsePlacementStrategy (gs "garbage") = .ok ⟨0, [⟨0, [], []⟩]⟩ := by decide

example : ParsePlacementStrategy (gs ";") = .error (gs "no placement rules found") := by decide

example :
    ParsePlacementStrategy (gs "weight=1,nodeSelector=node-type:ondemand") =
      .ok ⟨0, [⟨1, [(gs "node-type", gs "ondemand")], []⟩]⟩ := by decide

example : (ParsePlacementStrategy (gs "base=abc,weight=1")).isOk = false := by decide

example :
    ParsePlacementStrategy (gs "base=1,weight=1,nodeSelector=node-type:ondemand,affinity=app:web:zone:preferred") =
      .ok ⟨1, [⟨1, [(gs "node-type", gs "ondemand")],
        [⟨gs "affinity", [(gs "app", gs "web")], gs "zone", false⟩]⟩]⟩ := by decide

/-! ### Pod model (the parts of corev1.Pod the webhook touches) -/

/-- One pod affinity term (label selector plus topology key). -/
structure AffinityTerm where
  labelSelector : GoMap
  topologyKey : GoStr
deriving DecidableEq

/-- The pod's affinity block. The Go `corev1.Affinity` carries nullable
`PodAffinity` / `PodAntiAffinity` sub-structs each with a required and a
preferred term list; the block is collapsed to the four lists (preferred terms
carry the constant weight 100 the source assigns). -/
structure AffinityBlock where
  podAffinityRequired : List AffinityTerm
  podAffinityPreferred : List (Int × AffinityTerm)
  podAntiAffinityRequired : List AffinityTerm
  podAntiAffinityPreferred : List (Int × AffinityTerm)
deriving DecidableEq

/-- The empty affinity block (`&corev1.Affinity{}`). -/
def emptyAffinity : AffinityBlock := ⟨[], [], [], []⟩

/-- The parts of a pod the mutator reads and writes. `annotations` and
`nodeSelector` are `Option` to keep Go's nil-map / empty-map distinction that
`createPatch` can observe. -/
structure Pod where
  annotations : Option GoMap
  ownerRefCount : Nat
  nodeSelector : Option GoMap
  affinity : Option AffinityBlock
deriving DecidableEq

/-! ### Decision engine (part_006: ApplyPlacementStrategy and helpers) -/

/-- nodeSelector2String (webhook version): joins the selector entries as
`k=v` with `","` in map-iteration order. Despite the comment in the source
("Sort for consistent string representation") no sorting is performed. -/
def nodeSelector2String (sel : GoMap) : GoStr :=
  if sel = [] then []
  else goJoin (gs ",") (sel.map (fun kv => kv.1 ++ gs "=" ++ kv.2))

/-- ruleToString converts a placement rule to its tracking key. -/
def ruleToString (r : PlacementRule) : GoStr := nodeSelector2String r.nodeSelector

/-- applyAffinityRule: append one parsed affinity rule to the pod's affinity
block (required terms to the required list, otherwise a weight-100 preferred
term); the function's error return is always nil in the source. -/
def applyAffinityRule (b : AffinityBlock) (a : AffinityRule) : AffinityBlock :=
  let term : AffinityTerm := ⟨a.labelSelector, a.topologyKey⟩
  if a.type = gs "affinity" then
    if a.requiredDuringScheduling then
      { b with podAffinityRequired := b.podAffinityRequired ++ [term] }
    else
      { b with podAffinityPreferred := b.podAffinityPreferred ++ [(100, term)] }
  else if a.type = gs "anti-affinity" then
    if a.requiredDuringScheduling then
      { b with podAntiAffinityRequired := b.podAntiAffinityRequired ++ [term] }
    else
      { b with podAntiAffinityPreferred := b.podAntiAffinityPreferred ++ [(100, term)] }
  else b

/-- applyRule: merge the rule's node selector into the pod (the map
assignment `pod.Spec.NodeSelector[key] = value` lets the rule's entry replace
any existing entry at the same key), then append the rule's affinity terms,
creating the block if absent. -/
def applyRule (pod : Pod) (r : PlacementRule) : Pod :=
  let pod1 :=
    if r.nodeSelector ≠ [] then
      let merged := r.nodeSelector.foldl (fun m kv => mapInsert m kv.1 kv.2) (pod.nodeSelector.getD [])
      { pod with nodeSelector := some merged }
    else pod
  if r.affinity ≠ [] then
    let block := r.affinity.foldl applyAffinityRule (pod1.affinity.getD emptyAffinity)
    { pod1 with affinity := some block }
  else pod1

/-! #### IEEE-754 binary64 model

The decision engine computes its expected counts in Go `float64`. Each
float64 operation is modelled exactly: the operation's exact rational result
is rounded to the nearest representable binary64 value (53-bit significand,
round-to-nearest, ties-to-even). The magnitudes arising here are far from
the subnormal and overflow ranges, so the unbounded-exponent rounding below
coincides with IEEE binary64. -/

/-- Fuelled base-2 logarithm: the largest k with 2^k ≤ n (n ≥ 1; fuel n is
always sufficient). -/
def log2Fuel : Nat → Nat → Nat
  | 0, _ => 0
  | fuel + 1, n => if 2 ≤ n then log2Fuel fuel (n / 2) + 1 else 0

/-- The largest k with 2^k ≤ n, for n ≥ 1. -/
def natLog2 (n : Nat) : Nat := log2Fuel n n

/-- The least k with n·2^k ≥ d, for 1 ≤ n < d (fuelled doubling search). -/
def findScaleFuel : Nat → Nat → Nat → Nat
  | 0, _, _ => 0
  | fuel + 1, m, d => if d ≤ m then 0 else findScaleFuel fuel (2 * m) d + 1

/-- The least k with n·2^k ≥ d (0 for n = 0, which rounding never passes). -/
def findScale (n d : Nat) : Nat := if n = 0 then 0 else findScaleFuel d n d

/-- Round the positive rational n/d (d > 0) to the nearest integer,
ties to even. -/
def roundHalfEvenPos (n d : Nat) : Nat :=
  let f := n / d
  let r2 := 2 * (n - f * d)
  if r2 < d then f
  else if d < r2 then f + 1
  else if f % 2 = 0 then f else f + 1

/-- Round the positive rational n/d (n, d ≥ 1) to the nearest binary64
value: scale into [2^52, 2^53), round ties-to-even, scale back. -/
def froundPos (n d : Nat) : ℚ :=
  if d ≤ n then
    let e := natLog2 (n / d)
    if e ≤ 52 then
      let k := 52 - e
      mkRat (roundHalfEvenPos (n * 2 ^ k) d) (2 ^ k)
    else
      let k := e - 52
      mkRat (roundHalfEvenPos n (d * 2 ^ k) * 2 ^ k) 1
  else
    let k := findScale n d
    mkRat (roundHalfEvenPos (n * 2 ^ (52 + k)) d) (2 ^ (52 + k))

/-- Round a rational to the nearest binary64 value (normal range). -/
def fround (q : ℚ) : ℚ :=
  if q.num = 0 then 0
  else if 0 < q.num then froundPos q.num.toNat q.den
  else -froundPos (-q.num).toNat q.den

/-- Exact rational product (the operands' denominators are positive). -/
def qMul (x y : ℚ) : ℚ := mkRat (x.num * y.num) (x.den * y.den)

/-- Exact rational quotient (0 for division by zero, which the engine's
totalWeight ≠ 0 guard makes unreachable). -/
def qDiv (x y : ℚ) : ℚ :=
  if y.num = 0 then 0
  else if 0 < y.num then mkRat (x.num * y.den) (x.den * y.num.toNat)
  else mkRat (-(x.num * y.den)) (x.den * (-y.num).toNat)

/-- Go conversion `float64(n)` of an int (exact for |n| < 2^53, which these
inputs never exceed; fround is applied for faithfulness). -/
def f64ofInt (n : Int) : ℚ := fround (mkRat n 1)

/-- IEEE binary64 division of two binary64 values. -/
def f64div (x y : ℚ) : ℚ := fround (qDiv x y)

/-- IEEE binary64 multiplication of two binary64 values. -/
def f64mul (x y : ℚ) : ℚ := fround (qMul x y)

/-- Go conversion `int(x)` of a float64: truncation toward zero. -/
def goTruncToInt (q : ℚ) : Int := Int.tdiv q.num q.den

/-- Expected count for one rule in applyWeightedRule:
`int(float64(weight)/float64(totalWeight) * float64(podsBeyondBase))`, with
both float64 operations rounded to nearest binary64. This can differ from
`floor(weight·beyond/totalWeight)`: e.g. in binary64 `(1.0/49.0)*49.0`
rounds to `(2^53−1)/2^53 < 1`, so the conversion truncates to 0 while the
floor is 1. -/
def expectedCount (weight beyond totalWeight : Int) : Int :=
  goTruncToInt (f64mul (f64div (f64ofInt weight) (f64ofInt totalWeight)) (f64ofInt beyond))

example : f64mul (f64div (f64ofInt 1) (f64ofInt 49)) (f64ofInt 49) =
    mkRat (2 ^ 53 - 1) (2 ^ 53) := by decide
example : expectedCount 1 49 49 = 0 := by decide
example : expectedCount 48 49 49 = 48 := by decide
example : expectedCount 1 5 3 = 1 := by decide
example : expectedCount 2 9 3 = 6 := by decide
example : expectedCount 1 4 2 = 2 := by decide

/-- The deficit applyWeightedRule computes for one rule: expected count minus
the current count stored under the rule's tracking key. -/
def codeDeficit (counts : GoCounts) (beyond totalWeight : Int) (r : PlacementRule) : Int :=
  expectedCount r.weight beyond totalWeight - countsGet counts (ruleToString r)

/-- Selection loop of applyWeightedRule: scan the rules keeping the first
rule whose deficit strictly exceeds the best seen so far (initially the first
rule with best deficit -1.0). -/
def selectLoop (counts : GoCounts) (beyond totalWeight : Int) :
    List PlacementRule → PlacementRule → Int → PlacementRule × Int
  | [], best, bestD => (best, bestD)
  | r :: rest, best, bestD =>
    let d := codeDeficit counts beyond totalWeight r
    if bestD < d then selectLoop counts beyond totalWeight rest r d
    else selectLoop counts beyond totalWeight rest best bestD

/-- The rule applyWeightedRule selects (the loop of part_006 lines 358-398,
factored out of the pod mutation so theorems can speak about the choice). -/
def applyWeightedChoice (strategy : PlacementStrategy) (counts : GoCounts)
    (totalPods : Int) : Except GoStr PlacementRule :=
  match strategy.rules with
  | [] => .error (gs "no rules available for weighted distribution")
  | r0 :: _ =>
    let totalWeight := (strategy.rules.map (·.weight)).sum
    if totalWeight = 0 then .error (gs "total weight is zero")
    else
      let beyond := if totalPods - strategy.base < 0 then 0 else totalPods - strategy.base
      .ok (selectLoop counts beyond totalWeight strategy.rules r0 (-1)).1

/-- applyWeightedRule applies the weighted-distribution choice to the pod. -/
def applyWeightedRule (pod : Pod) (strategy : PlacementStrategy) (counts : GoCounts)
    (totalPods : Int) : Except GoStr Pod :=
  (applyWeightedChoice strategy counts totalPods).map (applyRule pod)

/-- The rule ApplyPlacementStrategy ends up applying: the first rule while the
total of ALL entries of the counts map is below base, otherwise the weighted
choice. -/
def placementChoice (strategy : PlacementStrategy) (counts : GoCounts) :
    Except GoStr PlacementRule :=
  match strategy.rules with
  | [] => .error (gs "invalid placement strategy")
  | r0 :: _ =>
    let totalPods := countsTotal counts
    if totalPods < strategy.base then .ok r0
    else applyWeightedChoice strategy counts totalPods

/-- ApplyPlacementStrategy applies the placement strategy to a pod based on
current pod counts. -/
def ApplyPlacementStrategy (pod : Pod) (strategy : PlacementStrategy)
    (counts : GoCounts) : Except GoStr Pod :=
  match strategy.rules with
  | [] => .error (gs "invalid placement strategy")
  | r0 :: _ =>
    let totalPods := countsTotal counts
    if totalPods < strategy.base then .ok (applyRule pod r0)
    else applyWeightedRule pod strategy counts totalPods

/-- ApplyPlacementStrategy is the pod-level image of `placementChoice`. -/
theorem applyPlacement_eq_choice (pod : Pod) (strategy : PlacementStrategy)
    (counts : GoCounts) :
    ApplyPlacementStrategy pod strategy counts = (placementChoice strategy counts).map (applyRule pod) := by
  unfold ApplyPlacementStrategy placementChoice applyWeightedRule
  cases strategy.rules with
  | nil => rfl
  | cons r0 rest =>
    by_cases h : countsTotal counts < strategy.base <;> simp [h, Except.map]

/-! ### Controller-side key and drift computation (rebalance_controller.go) -/

/-- nodeSelector2String (controller version): `fmt.Sprintf("%v", parts)` on a
Go string slice prints the parts space-separated inside square brackets. -/
def ctrlNodeSelector2String (sel : GoMap) : GoStr :=
  if sel = [] then []
  else gs "[" ++ goJoin (gs " ") (sel.map (fun kv => kv.1 ++ gs "=" ++ kv.2)) ++ gs "]"

/-- ruleToString (controller version). -/
def ctrlRuleToString (r : PlacementRule) : GoStr := ctrlNodeSelector2String r.nodeSelector

example :
    nodeSelector2String [(gs "node-type", gs "ondemand")] = gs "node-type=ondemand" := by decide

example :
    ctrlNodeSelector2String [(gs "node-type", gs "ondemand")] = gs "[node-type=ondemand]" := by
  decide

/-- Characterization of the applyWeightedRule selection loop: either no rule
improves on the incoming best deficit and the accumulator is returned
unchanged, or the loop returns the first rule attaining the maximal deficit
among those strictly above the incoming best. -/
theorem selectLoop_char (counts : GoCounts) (beyond totalWeight : Int) :
    ∀ (L : List PlacementRule) (best : PlacementRule) (bestD : Int),
      (selectLoop counts beyond totalWeight L best bestD = (best, bestD) ∧
        ∀ r ∈ L, codeDeficit counts beyond totalWeight r ≤ bestD) ∨
      (∃ i : Fin L.length,
        selectLoop counts beyond totalWeight L best bestD =
          (L.get i, codeDeficit counts beyond totalWeight (L.get i)) ∧
        bestD < codeDeficit counts beyond totalWeight (L.get i) ∧
        (∀ r ∈ L, codeDeficit counts beyond totalWeight r ≤
          codeDeficit counts beyond totalWeight (L.get i)) ∧
        (∀ j : Fin L.length, j.val < i.val →
          codeDeficit counts beyond totalWeight (L.get j) <
            codeDeficit counts beyond totalWeight (L.get i))) := by
  intro L
  induction L with
  | nil =>
    intro best bestD
    left
    exact ⟨rfl, by simp⟩
  | cons r rest ih =>
    intro best bestD
    by_cases h : bestD < codeDeficit counts beyond totalWeight r
    · have hstep : selectLoop counts beyond totalWeight (r :: rest) best bestD =
        selectLoop counts beyond totalWeight rest r (codeDeficit counts beyond totalWeight r) := by
        simp [selectLoop, h]
      rcases ih r (codeDeficit counts beyond totalWeight r) with ⟨heq, hbound⟩ | ⟨i, heq, hlt, hbound, hfirst⟩
      · right
        refine ⟨⟨0, Nat.succ_pos _⟩, by rw [hstep, heq]; rfl, h, ?_, ?_⟩
        · intro r' hr'
          rcases List.mem_cons.mp hr' with rfl | hmem
          · exact le_refl _
          · exact hbound r' hmem
        · intro j hj
          exact absurd hj (Nat.not_lt_zero _)
      · right
        refine ⟨⟨i.val + 1, Nat.succ_lt_succ i.isLt⟩, by rw [hstep, heq]; rfl, lt_trans h hlt, ?_, ?_⟩
        · intro r' hr'
          rcases List.mem_cons.mp hr' with rfl | hmem
          · exact le_of_lt hlt
          · exact hbound r' hmem
        · intro j hj
          match j with
          | ⟨0, h0⟩ => exact hlt
          | ⟨jv + 1, hjv⟩ =>
            exact hfirst ⟨jv, Nat.lt_of_succ_lt_succ hjv⟩ (Nat.lt_of_succ_lt_succ hj)
    · have hstep : selectLoop counts beyond totalWeight (r :: rest) best bestD =
        selectLoop counts beyond totalWeight rest best bestD := by
        simp [selectLoop, h]
      rcases ih best bestD with ⟨heq, hbound⟩ | ⟨i, heq, hlt, hbound, hfirst⟩
      · left
        refine ⟨by rw [hstep, heq], ?_⟩
        intro r' hr'
        rcases List.mem_cons.mp hr' with rfl | hmem
        · exact le_of_not_lt h
        · exact hbound r' hmem
      · right
        refine ⟨⟨i.val + 1, Nat.succ_lt_succ i.isLt⟩, by rw [hstep, heq]; rfl, hlt, ?_, ?_⟩
        · intro r' hr'
          rcases List.mem_cons.mp hr' with rfl | hmem
          · exact le_trans (le_of_not_lt h) (le_of_lt hlt)
          · exact hbound r' hmem
        · intro j hj
          match j with
          | ⟨0, h0⟩ => exact lt_of_le_of_lt (le_of_not_lt h) hlt
          | ⟨jv + 1, hjv⟩ =>
            exact hfirst ⟨jv, Nat.lt_of_succ_lt_succ hjv⟩ (Nat.lt_of_succ_lt_succ hj)

/-- Spec-side deficit of a rule: `floor(pods_beyond_base · weight / W) − actual`. -/
def specDeficit (counts : GoCounts) (beyond totalWeight : Int) (r : PlacementRule) : Int :=
  Int.fdiv (beyond * r.weight) totalWeight - countsGet counts (ruleToString r)


/-- Deficit of a rule under a strategy and counts map as the PROGRAM
computes it: binary64-rounded expected count minus actual, the beyond-base
count taken from the total of all map entries. -/
def strategyDeficit (strategy : PlacementStrategy) (counts : GoCounts) (r : PlacementRule) : Int :=
  codeDeficit counts (countsTotal counts - strategy.base)
    ((strategy.rules.map (fun q => q.weight)).sum) r

/-- Deficit of a rule as the SPEC words it: floor-based expected count minus
actual, the beyond-base count taken from the total of all map entries. -/
def floorStrategyDeficit (strategy : PlacementStrategy) (counts : GoCounts)
    (r : PlacementRule) : Int :=
  specDeficit counts (countsTotal counts - strategy.base)
    ((strategy.rules.map (fun q => q.weight)).sum) r

/-- Claim C2 (amended): for a non-empty strategy with total weight W > 0
and counts-map total at least base, the decision engine returns the rule
with the largest deficit expected(r) − actual(r) — where expected(r) is the
program's `int(float64(weight)/float64(W) * float64(beyond))` computed in
binary64 arithmetic, which deviates from the spec's
`floor(beyond·weight/W)` at rounding boundaries such as W = 49 — with
earlier rules winning ties, PROVIDED some rule's deficit exceeds −1; when
every deficit is ≤ −1 (the loop's running best starts at −1.0) it returns
the first rule regardless. -/
theorem C2_weighted_deficit_argmax (strategy : PlacementStrategy) (counts : GoCounts)
    (hne : strategy.rules ≠ [])
    (hW : 0 < (strategy.rules.map (fun q => q.weight)).sum)
    (hbase : strategy.base ≤ countsTotal counts) :
    ∃ i : Fin strategy.rules.length,
      placementChoice strategy counts = .ok (strategy.rules.get i) ∧
      ((∃ r ∈ strategy.rules, -1 < strategyDeficit strategy counts r) →
        (∀ r ∈ strategy.rules,
          strategyDeficit strategy counts r ≤ strategyDeficit strategy counts (strategy.rules.get i)) ∧
        (∀ j : Fin strategy.rules.length, j.val < i.val →
          strategyDeficit strategy counts (strategy.rules.get j) <
            strategyDeficit strategy counts (strategy.rules.get i))) ∧
      ((∀ r ∈ strategy.rules, strategyDeficit strategy counts r ≤ -1) → i.val = 0) := by
  rcases strategy with ⟨base, rules⟩
  rcases rules with _ | ⟨r0, rest⟩
  · exact absurd rfl hne
  simp only [PlacementStrategy.rules] at hW ⊢
  simp only [PlacementStrategy.base] at hbase ⊢
  have hnlt : ¬(countsTotal counts < base) := not_lt.mpr hbase
  have hWne : ((r0 :: rest).map (fun q => q.weight)).sum ≠ 0 := ne_of_gt hW
  have hbe : ¬(countsTotal counts - base < 0) := by omega
  have hchoice : placementChoice ⟨base, r0 :: rest⟩ counts =
      .ok (selectLoop counts (countsTotal counts - base)
        ((r0 :: rest).map (fun q => q.weight)).sum (r0 :: rest) r0 (-1)).1 := by
    simp only [placementChoice, applyWeightedChoice, hnlt, if_false, hWne, hbe]
  have hd : ∀ r : PlacementRule,
      codeDeficit counts (countsTotal counts - base) ((r0 :: rest).map (fun q => q.weight)).sum r =
      strategyDeficit ⟨base, r0 :: rest⟩ counts r := fun r => rfl
  rcases selectLoop_char counts (countsTotal counts - base)
      ((r0 :: rest).map (fun q => q.weight)).sum (r0 :: rest) r0 (-1) with
    ⟨heq, hbound⟩ | ⟨i, heq, hlt, hbound, hfirst⟩
  · refine ⟨⟨0, Nat.succ_pos _⟩, ?_, ?_, ?_⟩
    · rw [hchoice, heq]
      rfl
    · intro ⟨r, hr, hgt⟩
      rw [← hd r] at hgt
      exact absurd (hbound r hr) (not_le.mpr hgt)
    · intro _
      rfl
  · refine ⟨i, ?_, ?_, ?_⟩
    · rw [hchoice, heq]
    · intro _
      constructor
      · intro r hr
        rw [← hd r, ← hd _]
        exact hbound r hr
      · intro j hj
        rw [← hd _, ← hd _]
        exact hfirst j hj
    · intro hall
      have h1 := hall _ (List.get_mem _ _ i.isLt)
      rw [← hd _] at h1
      exact absurd hlt (not_lt.mpr h1)

/-- Witness for C2: the scenario-1 strategy `base=1, 1:ondemand / 2:spot`
with counts `{ondemand: 1, spot: 0}` satisfies the hypotheses, and the
conclusion holds there (the engine picks the spot rule, index 1). -/
theorem C2_weighted_deficit_argmax_witness :
    ((⟨1, [⟨1, [(gs "node-type", gs "ondemand")], []⟩, ⟨2, [(gs "node-type", gs "spot")], []⟩]⟩ :
        PlacementStrategy).rules ≠ [] ∧
      (0 : Int) < 3 ∧
      (1 : Int) ≤ countsTotal [(gs "node-type=ondemand", 1), (gs "node-type=spot", 0)]) ∧
    (∃ i : Fin 2,
      placementChoice ⟨1, [⟨1, [(gs "node-type", gs "ondemand")], []⟩, ⟨2, [(gs "node-type", gs "spot")], []⟩]⟩
          [(gs "node-type=ondemand", 1), (gs "node-type=spot", 0)] =
        .ok ([⟨1, [(gs "node-type", gs "ondemand")], []⟩,
          (⟨2, [(gs "node-type", gs "spot")], []⟩ : PlacementRule)].get i) ∧
      ((∃ r ∈ [⟨1, [(gs "node-type", gs "ondemand")], []⟩,
            (⟨2, [(gs "node-type", gs "spot")], []⟩ : PlacementRule)],
          -1 < strategyDeficit ⟨1, [⟨1, [(gs "node-type", gs "ondemand")], []⟩, ⟨2, [(gs "node-type", gs "spot")], []⟩]⟩
            [(gs "node-type=ondemand", 1), (gs "node-type=spot", 0)] r) →
        (∀ r ∈ [⟨1, [(gs "node-type", gs "ondemand")], []⟩,
            (⟨2, [(gs "node-type", gs "spot")], []⟩ : PlacementRule)],
          strategyDeficit ⟨1, [⟨1, [(gs "node-type", gs "ondemand")], []⟩, ⟨2, [(gs "node-type", gs "spot")], []⟩]⟩
            [(gs "node-type=ondemand", 1), (gs "node-type=spot", 0)] r ≤
          strategyDeficit ⟨1, [⟨1, [(gs "node-type", gs "ondemand")], []⟩, ⟨2, [(gs "node-type", gs "spot")], []⟩]⟩
            [(gs "node-type=ondemand", 1), (gs "node-type=spot", 0)]
            ([⟨1, [(gs "node-type", gs "ondemand")], []⟩,
              (⟨2, [(gs "node-type", gs "spot")], []⟩ : PlacementRule)].get i)) ∧
        (∀ j : Fin 2, j.val < i.val →
          strategyDeficit ⟨1, [⟨1, [(gs "node-type", gs "ondemand")], []⟩, ⟨2, [(gs "node-type", gs "spot")], []⟩]⟩
            [(gs "node-type=ondemand", 1), (gs "node-type=spot", 0)]
            ([⟨1, [(gs "node-type", gs "ondemand")], []⟩,
              (⟨2, [(gs "node-type", gs "spot")], []⟩ : PlacementRule)].get j) <
          strategyDeficit ⟨1, [⟨1, [(gs "node-type", gs "ondemand")], []⟩, ⟨2, [(gs "node-type", gs "spot")], []⟩]⟩
            [(gs "node-type=ondemand", 1), (gs "node-type=spot", 0)]
            ([⟨1, [(gs "node-type", gs "ondemand")], []⟩,
              (⟨2, [(gs "node-type", gs "spot")], []⟩ : PlacementRule)].get i))) ∧
      ((∀ r ∈ [⟨1, [(gs "node-type", gs "ondemand")], []⟩,
            (⟨2, [(gs "node-type", gs "spot")], []⟩ : PlacementRule)],
          strategyDeficit ⟨1, [⟨1, [(gs "node-type", gs "ondemand")], []⟩, ⟨2, [(gs "node-type", gs "spot")], []⟩]⟩
            [(gs "node-type=ondemand", 1), (gs "node-type=spot", 0)] r ≤ -1) → i.val = 0)) :=
  ⟨⟨by decide, by decide, by decide⟩,
    C2_weighted_deficit_argmax
      ⟨1, [⟨1, [(gs "node-type", gs "ondemand")], []⟩, ⟨2, [(gs "node-type", gs "spot")], []⟩]⟩
      [(gs "node-type=ondemand", 1), (gs "node-type=spot", 0)]
      (by decide) (by decide) (by decide)⟩

/-- Counterexamples for C2 as stated (expected(r) = floor(beyond·w/W),
largest deficit wins, earlier on ties). Both inputs satisfy the claim's
hypotheses (W > 0, total ≥ base).
FIRST (the −1.0 initial best): base 10, two weight-1 rules keyed `a=x`,
`b=y`, counts `{a=x: 7, b=y: 5}`: the floor deficits are −6 and −4 (all
arithmetic float-exact), so the claim demands rule 1, but no deficit exceeds
the −1.0 the loop starts with, and rule 0 is returned.
SECOND (binary64 rounding): base 0, rules `{w 1, a=x}`, `{w 48, b=y}`,
counts `{a=x: 0, b=y: 47, z: 2}` (total 49, W = 49): the floor deficits tie
at 1 and 1, so the claim demands rule 0; but in binary64
`(1.0/49.0)*49.0` truncates to 0, giving the program deficits 0 and 1, and
rule 1 is returned. -/
theorem C2_floor_argmax_counterexamples :
    (placementChoice ⟨10, [⟨1, [(gs "a", gs "x")], []⟩, ⟨1, [(gs "b", gs "y")], []⟩]⟩
        [(gs "a=x", 7), (gs "b=y", 5)] =
      .ok ⟨1, [(gs "a", gs "x")], []⟩ ∧
    floorStrategyDeficit ⟨10, [⟨1, [(gs "a", gs "x")], []⟩, ⟨1, [(gs "b", gs "y")], []⟩]⟩
        [(gs "a=x", 7), (gs "b=y", 5)] ⟨1, [(gs "a", gs "x")], []⟩ <
      floorStrategyDeficit ⟨10, [⟨1, [(gs "a", gs "x")], []⟩, ⟨1, [(gs "b", gs "y")], []⟩]⟩
        [(gs "a=x", 7), (gs "b=y", 5)] ⟨1, [(gs "b", gs "y")], []⟩ ∧
    (⟨1, [(gs "a", gs "x")], []⟩ : PlacementRule) ≠ ⟨1, [(gs "b", gs "y")], []⟩) ∧
    (placementChoice ⟨0, [⟨1, [(gs "a", gs "x")], []⟩, ⟨48, [(gs "b", gs "y")], []⟩]⟩
        [(gs "a=x", 0), (gs "b=y", 47), (gs "z", 2)] =
      .ok ⟨48, [(gs "b", gs "y")], []⟩ ∧
    floorStrategyDeficit ⟨0, [⟨1, [(gs "a", gs "x")], []⟩, ⟨48, [(gs "b", gs "y")], []⟩]⟩
        [(gs "a=x", 0), (gs "b=y", 47), (gs "z", 2)] ⟨1, [(gs "a", gs "x")], []⟩ = 1 ∧
    floorStrategyDeficit ⟨0, [⟨1, [(gs "a", gs "x")], []⟩, ⟨48, [(gs "b", gs "y")], []⟩]⟩
        [(gs "a=x", 0), (gs "b=y", 47), (gs "z", 2)] ⟨48, [(gs "b", gs "y")], []⟩ = 1 ∧
    (⟨48, [(gs "b", gs "y")], []⟩ : PlacementRule) ≠ ⟨1, [(gs "a", gs "x")], []⟩) := by
  refine ⟨⟨by decide, by decide, by decide⟩, ⟨by decide, by decide, by decide, by decide⟩⟩

/-- Total pod count as the spec's step 1 words it for C8: the sum of
`pod_counts[group_key(r)]` over the rules of the strategy only. -/
def specStrategyKeysTotal (strategy : PlacementStrategy) (counts : GoCounts) : Int :=
  (strategy.rules.map (fun r => countsGet counts (ruleToString r))).sum

/-- Claim C8 (amended): the total used by ApplyPlacementStrategy is the sum
over ALL entries of the counts map (keys outside the strategy included), and
whenever that total is strictly below base the engine selects the first
rule. -/
theorem C8_total_below_base_first_rule (pod : Pod) (strategy : PlacementStrategy)
    (counts : GoCounts) (r0 : PlacementRule) (rest : List PlacementRule)
    (hr : strategy.rules = r0 :: rest)
    (hlt : countsTotal counts < strategy.base) :
    placementChoice strategy counts = .ok r0 ∧
    ApplyPlacementStrategy pod strategy counts = .ok (applyRule pod r0) := by
  rcases strategy with ⟨base, rules⟩
  simp only [PlacementStrategy.rules] at hr
  subst hr
  simp only [PlacementStrategy.base] at hlt
  constructor
  · simp [placementChoice, hlt]
  · simp [ApplyPlacementStrategy, hlt]

/-- Witness for C8: strategy `base=3` over rules keyed `a=x`, `b=y` with
counts `{a=x: 1, b=y: 1}` (total 2 < 3): the first rule is chosen and
applied to the empty pod. -/
theorem C8_total_below_base_first_rule_witness :
    ((⟨3, [⟨1, [(gs "a", gs "x")], []⟩, ⟨1, [(gs "b", gs "y")], []⟩]⟩ :
        PlacementStrategy).rules = [⟨1, [(gs "a", gs "x")], []⟩, ⟨1, [(gs "b", gs "y")], []⟩] ∧
      countsTotal [(gs "a=x", 1), (gs "b=y", 1)] < 3) ∧
    (placementChoice ⟨3, [⟨1, [(gs "a", gs "x")], []⟩, ⟨1, [(gs "b", gs "y")], []⟩]⟩
        [(gs "a=x", 1), (gs "b=y", 1)] = .ok ⟨1, [(gs "a", gs "x")], []⟩ ∧
      ApplyPlacementStrategy ⟨none, 1, none, none⟩
          ⟨3, [⟨1, [(gs "a", gs "x")], []⟩, ⟨1, [(gs "b", gs "y")], []⟩]⟩
          [(gs "a=x", 1), (gs "b=y", 1)] =
        .ok (applyRule ⟨none, 1, none, none⟩ ⟨1, [(gs "a", gs "x")], []⟩)) :=
  ⟨⟨by decide, by decide⟩,
    C8_total_below_base_first_rule ⟨none, 1, none, none⟩
      ⟨3, [⟨1, [(gs "a", gs "x")], []⟩, ⟨1, [(gs "b", gs "y")], []⟩]⟩
      [(gs "a=x", 1), (gs "b=y", 1)] _ _ rfl (by decide)⟩

/-- Counterexample for C8 as stated: strategy base 3 over rules keyed `a=x`
and `b=y`, counts `{z: 5, a=x: 2}`. The spec's total (strategy keys only) is
2 < 3, so the claim requires rule 0; but the code sums all map entries
(total 7 ≥ 3), takes the weighted path and returns rule 1. -/
theorem C8_stray_keys_inflate_total :
    specStrategyKeysTotal ⟨3, [⟨1, [(gs "a", gs "x")], []⟩, ⟨1, [(gs "b", gs "y")], []⟩]⟩
        [(gs "z", 5), (gs "a=x", 2)] = 2 ∧
    placementChoice ⟨3, [⟨1, [(gs "a", gs "x")], []⟩, ⟨1, [(gs "b", gs "y")], []⟩]⟩
        [(gs "z", 5), (gs "a=x", 2)] = .ok ⟨1, [(gs "b", gs "y")], []⟩ ∧
    (⟨1, [(gs "b", gs "y")], []⟩ : PlacementRule) ≠ ⟨1, [(gs "a", gs "x")], []⟩ := by
  refine ⟨by decide, by decide, by decide⟩

/-! ### Group-key canonicality (claim C4) -/

/-- Lexicographic-or-equal comparison of Go strings (byte order). -/
def strLe : GoStr → GoStr → Bool
  | [], _ => true
  | _ :: _, [] => false
  | a :: as, b :: bs => if a = b then strLe as bs else decide (a < b)

/-- Insert an entry into a key-sorted association list. -/
def insertByKey (kv : GoStr × GoStr) : GoMap → GoMap
  | [] => [kv]
  | kv' :: rest => if strLe kv.1 kv'.1 then kv :: kv' :: rest else kv' :: insertByKey kv rest

/-- Sort a selector's entries by key (insertion sort). -/
def sortByKey (m : GoMap) : GoMap := m.foldr insertByKey []

/-- The canonical group key the spec describes: entries sorted by key, each
emitted as `k=v`, joined with `,`. -/
def specCanonicalKey (sel : GoMap) : GoStr :=
  goJoin (gs ",") ((sortByKey sel).map (fun kv => kv.1 ++ gs "=" ++ kv.2))

/-- Claim C4: the webhook and controller group-key functions disagree with
each other and with the sorted canonical form. On the one-entry selector
`{node-type: ondemand}` the webhook emits `node-type=ondemand` while the
controller emits `[node-type=ondemand]` (Go `%v` of a string slice), so the
mutator/state store and the drift reconciler key the same mapping
differently; and on the iteration order `(b,2),(a,1)` of a two-entry mapping
the webhook output is not the sorted canonical string (no sort is performed,
despite the comment in the source). -/
theorem C4_group_keys_not_canonical :
    nodeSelector2String [(gs "node-type", gs "ondemand")] = gs "node-type=ondemand" ∧
    ctrlNodeSelector2String [(gs "node-type", gs "ondemand")] = gs "[node-type=ondemand]" ∧
    nodeSelector2String [(gs "node-type", gs "ondemand")] ≠
      ctrlNodeSelector2String [(gs "node-type", gs "ondemand")] ∧
    specCanonicalKey [(gs "b", gs "2"), (gs "a", gs "1")] = gs "a=1,b=2" ∧
    nodeSelector2String [(gs "b", gs "2"), (gs "a", gs "1")] = gs "b=2,a=1" ∧
    nodeSelector2String [(gs "b", gs "2"), (gs "a", gs "1")] ≠
      specCanonicalKey [(gs "b", gs "2"), (gs "a", gs "1")] := by
  refine ⟨by decide, by decide, by decide, by decide, by decide, by decide⟩

/-! ### Node-selector merge and affinity append (claim C6) -/

/-- Value of a map-insert at a key. -/
theorem mapGet_mapInsert (m : GoMap) (a b k : GoStr) :
    mapGet (mapInsert m a b) k = if a = k then b else mapGet m k := by
  induction m with
  | nil => simp [mapInsert, mapGet]
  | cons kv rest ih =>
    obtain ⟨k', v'⟩ := kv
    by_cases h1 : k' = a
    · subst h1
      by_cases h2 : k' = k <;> simp [mapInsert, mapGet, h2]
    · by_cases h2 : k' = k
      · subst h2
        simp [mapInsert, mapGet, h1, Ne.symm h1]
      · simp [mapInsert, mapGet, h1, h2, ih]

/-- A present key is among the mapped keys. -/
theorem mapHas_iff_mem_keys (m : GoMap) (k : GoStr) :
    mapHas m k = true ↔ k ∈ m.map (fun kv => kv.1) := by
  induction m with
  | nil => simp [mapHas]
  | cons kv rest ih =>
    by_cases h : kv.1 = k
    · simp [mapHas, h]
    · simp [mapHas, h, ih, Ne.symm h]

/-- Folding Go map assignments of `entries` over `base` reads back the
entry's value for keys of `entries` (unique keys) and the base value
elsewhere. -/
theorem mapGet_foldl_insert (entries : GoMap) (base : GoMap)
    (hnodup : (entries.map (fun kv => kv.1)).Nodup) (k : GoStr) :
    mapGet (entries.foldl (fun m kv => mapInsert m kv.1 kv.2) base) k =
      if mapHas entries k then mapGet entries k else mapGet base k := by
  induction entries generalizing base with
  | nil => simp [mapHas]
  | cons e es ih =>
    obtain ⟨hnotin, hnd⟩ := List.nodup_cons.mp hnodup
    have hstep : (e :: es).foldl (fun m kv => mapInsert m kv.1 kv.2) base =
        es.foldl (fun m kv => mapInsert m kv.1 kv.2) (mapInsert base e.1 e.2) := rfl
    rw [hstep, ih _ hnd]
    by_cases hk : e.1 = k
    · subst hk
      have hes : mapHas es e.1 = false := by
        rcases h : mapHas es e.1 with _ | _
        · rfl
        · exact absurd ((mapHas_iff_mem_keys es e.1).mp h) hnotin
      simp [mapHas, hes, mapGet, mapGet_mapInsert]
    · by_cases h2 : mapHas es k <;>
        simp [mapHas, hk, h2, mapGet, mapGet_mapInsert, Ne.symm, hk]

/-- The affinity term contributed by one parsed affinity rule. -/
def affTerm (a : AffinityRule) : AffinityTerm := ⟨a.labelSelector, a.topologyKey⟩

/-- Terms a rule list contributes to required pod affinity. -/
def affReq (rs : List AffinityRule) : List AffinityTerm :=
  (rs.filter (fun a => a.type = gs "affinity" && a.requiredDuringScheduling)).map affTerm

/-- Terms a rule list contributes to preferred pod affinity (weight 100). -/
def affPref (rs : List AffinityRule) : List (Int × AffinityTerm) :=
  (rs.filter (fun a => a.type = gs "affinity" && !a.requiredDuringScheduling)).map
    (fun a => (100, affTerm a))

/-- Terms a rule list contributes to required pod anti-affinity. -/
def antiAffReq (rs : List AffinityRule) : List AffinityTerm :=
  (rs.filter (fun a => a.type = gs "anti-affinity" && a.requiredDuringScheduling)).map affTerm

/-- Terms a rule list contributes to preferred pod anti-affinity. -/
def antiAffPref (rs : List AffinityRule) : List (Int × AffinityTerm) :=
  (rs.filter (fun a => a.type = gs "anti-affinity" && !a.requiredDuringScheduling)).map
    (fun a => (100, affTerm a))

/-- The two affinity type tags are distinct strings. -/
theorem aff_ne_anti : gs "affinity" ≠ gs "anti-affinity" := by decide

/-- The two affinity type tags are distinct strings (other direction). -/
theorem anti_ne_aff : gs "anti-affinity" ≠ gs "affinity" := by decide

/-- Folding applyAffinityRule appends each rule's term to the matching list
of the block, preserving everything already present. -/
theorem foldl_applyAffinityRule (rs : List AffinityRule) (b : AffinityBlock) :
    rs.foldl applyAffinityRule b =
      ⟨b.podAffinityRequired ++ affReq rs,
       b.podAffinityPreferred ++ affPref rs,
       b.podAntiAffinityRequired ++ antiAffReq rs,
       b.podAntiAffinityPreferred ++ antiAffPref rs⟩ := by
  induction rs generalizing b with
  | nil => simp [affReq, affPref, antiAffReq, antiAffPref]
  | cons a as ih =>
    have hstep : (a :: as).foldl applyAffinityRule b = as.foldl applyAffinityRule (applyAffinityRule b a) := rfl
    rw [hstep, ih]
    by_cases h1 : a.type = gs "affinity"
    · have h2 : ¬(a.type = gs "anti-affinity") := by rw [h1]; decide
      rcases hreq : a.requiredDuringScheduling with _ | _ <;>
        simp [applyAffinityRule, affReq, affPref, antiAffReq, antiAffPref, h1, h2, hreq, affTerm, List.filter_cons, aff_ne_anti, anti_ne_aff]
    · by_cases h2 : a.type = gs "anti-affinity"
      · rcases hreq : a.requiredDuringScheduling with _ | _ <;>
          simp [applyAffinityRule, affReq, affPref, antiAffReq, antiAffPref, h1, h2, hreq, affTerm, List.filter_cons, aff_ne_anti, anti_ne_aff]
      · simp [applyAffinityRule, affReq, affPref, antiAffReq, antiAffPref, h1, h2, List.filter_cons, aff_ne_anti, anti_ne_aff]

/-- Claim C6 (amended): when the mutator applies a rule, node-selector
entries merge with the RULE winning key collisions (the pod's pre-existing
value is replaced, not kept), keys absent from the rule keep the pod's
values; affinity terms are appended to the pod's affinity block (created if
absent), preserving all pre-existing terms. -/
theorem C6_applyRule_merge_semantics (pod : Pod) (r : PlacementRule)
    (hnodup : (r.nodeSelector.map (fun kv => kv.1)).Nodup) :
    (∀ k, mapGet ((applyRule pod r).nodeSelector.getD []) k =
      if mapHas r.nodeSelector k then mapGet r.nodeSelector k
      else mapGet (pod.nodeSelector.getD []) k) ∧
    ((applyRule pod r).affinity =
      if r.affinity = [] then pod.affinity
      else
        some ⟨(pod.affinity.getD emptyAffinity).podAffinityRequired ++ affReq r.affinity,
          (pod.affinity.getD emptyAffinity).podAffinityPreferred ++ affPref r.affinity,
          (pod.affinity.getD emptyAffinity).podAntiAffinityRequired ++ antiAffReq r.affinity,
          (pod.affinity.getD emptyAffinity).podAntiAffinityPreferred ++ antiAffPref r.affinity⟩) := by
  constructor
  · intro k
    by_cases hsel : r.nodeSelector = []
    · by_cases haff : r.affinity = [] <;> simp [applyRule, hsel, haff, mapHas]
    · have hns : (applyRule pod r).nodeSelector =
          some (r.nodeSelector.foldl (fun m kv => mapInsert m kv.1 kv.2) (pod.nodeSelector.getD [])) := by
        by_cases haff : r.affinity = [] <;> simp [applyRule, hsel, haff]
      rw [hns]
      simpa using mapGet_foldl_insert r.nodeSelector (pod.nodeSelector.getD []) hnodup k
  · by_cases haff : r.affinity = []
    · by_cases hsel : r.nodeSelector = [] <;> simp [applyRule, hsel, haff]
    · have hblock : (applyRule pod r).affinity =
          some (r.affinity.foldl applyAffinityRule (pod.affinity.getD emptyAffinity)) := by
        by_cases hsel : r.nodeSelector = [] <;> simp [applyRule, hsel, haff]
      rw [hblock, foldl_applyAffinityRule]
      simp [haff]

/-- Witness for C6: a pod with selector `{k: pod}` receiving the rule
`{k: rule}` with one preferred affinity term; the merged selector reads back
the rule's value and the term is appended to a fresh block. -/
theorem C6_applyRule_merge_semantics_witness :
    (([(gs "k", gs "rule")].map (fun kv => kv.1)).Nodup) ∧
    ((∀ k, mapGet ((applyRule ⟨none, 1, some [(gs "k", gs "pod")], none⟩
        ⟨0, [(gs "k", gs "rule")], [⟨gs "affinity", [(gs "app", gs "web")], gs "zone", false⟩]⟩).nodeSelector.getD []) k =
      if mapHas [(gs "k", gs "rule")] k then mapGet [(gs "k", gs "rule")] k
      else mapGet ((some [(gs "k", gs "pod")] : Option GoMap).getD []) k) ∧
    ((applyRule ⟨none, 1, some [(gs "k", gs "pod")], none⟩
        ⟨0, [(gs "k", gs "rule")], [⟨gs "affinity", [(gs "app", gs "web")], gs "zone", false⟩]⟩).affinity =
      if ([⟨gs "affinity", [(gs "app", gs "web")], gs "zone", false⟩] : List AffinityRule) = []
      then (none : Option AffinityBlock)
      else
        some ⟨((none : Option AffinityBlock).getD emptyAffinity).podAffinityRequired ++
            affReq [⟨gs "affinity", [(gs "app", gs "web")], gs "zone", false⟩],
          ((none : Option AffinityBlock).getD emptyAffinity).podAffinityPreferred ++
            affPref [⟨gs "affinity", [(gs "app", gs "web")], gs "zone", false⟩],
          ((none : Option AffinityBlock).getD emptyAffinity).podAntiAffinityRequired ++
            antiAffReq [⟨gs "affinity", [(gs "app", gs "web")], gs "zone", false⟩],
          ((none : Option AffinityBlock).getD emptyAffinity).podAntiAffinityPreferred ++
            antiAffPref [⟨gs "affinity", [(gs "app", gs "web")], gs "zone", false⟩]⟩)) :=
  ⟨by decide,
    C6_applyRule_merge_semantics ⟨none, 1, some [(gs "k", gs "pod")], none⟩
      ⟨0, [(gs "k", gs "rule")], [⟨gs "affinity", [(gs "app", gs "web")], gs "zone", false⟩]⟩
      (by decide)⟩

/-- Counterexample for C6 as stated: the pod arrives with `{k: pod}` and the
rule carries `{k: rule}`; after applyRule the pod's selector holds the RULE's
value, so the claim that the pod's pre-existing value is kept is false. -/
theorem C6_rule_overwrites_pod_value :
    (applyRule ⟨none, 0, some [(gs "k", gs "pod")], none⟩ ⟨0, [(gs "k", gs "rule")], []⟩).nodeSelector =
      some [(gs "k", gs "rule")] ∧
    gs "rule" ≠ gs "pod" := by
  refine ⟨by decide, by decide⟩

/-! ### Parser leniency (claim C10) -/

/-- A parameter starts with one of the five recognized markers. -/
def recognizedParam (p : GoStr) : Bool :=
  goStartsWith p (gs "base=") || goStartsWith p (gs "weight=") ||
    goStartsWith p (gs "nodeSelector=") || goStartsWith p (gs "affinity=") ||
    goStartsWith p (gs "anti-affinity=")

/-- Splitting on a separator that does not occur returns the whole string
as the single part. -/
theorem goSplit_no_sep (s : GoStr) (sep : Char) (h : sep ∉ s) : goSplit s sep = [s] := by
  induction s with
  | nil => rfl
  | cons c cs ih =>
    have hc : ¬(c = sep) := fun hh => h (hh ▸ List.mem_cons_self c cs)
    have hcs : sep ∉ cs := fun hh => h (List.mem_cons_of_mem c hh)
    simp [goSplit, ih hcs, hc]

/-- The first-rule parameter loop skips every parameter with no recognized
marker, returning the incoming base and rule unchanged and never an error. -/
theorem parseFirstRuleLoop_skipsUnrecognized :
    ∀ (ps : List GoStr) (b : Int) (r : PlacementRule),
      (∀ p ∈ ps, recognizedParam (goTrim p) = false) →
      parseFirstRuleLoop ps b r = .ok (b, r) := by
  intro ps
  induction ps with
  | nil => intro b r _; rfl
  | cons p rest ih =>
    intro b r h
    have hp := h p (List.mem_cons_self p rest)
    have hrest : ∀ q ∈ rest, recognizedParam (goTrim q) = false :=
      fun q hq => h q (List.mem_cons_of_mem p hq)
    simp only [recognizedParam, Bool.or_eq_false_iff] at hp
    obtain ⟨⟨⟨⟨h1, h2⟩, h3⟩, h4⟩, h5⟩ := hp
    by_cases hemp : goTrim p = []
    · simpa [parseFirstRuleLoop, hemp] using ih b r hrest
    · simpa [parseFirstRuleLoop, hemp, h1, h2, h3, h4, h5] using ih b r hrest

/-- Claim C10 (amended): parameters with no recognized marker (base=,
weight=, nodeSelector=, affinity=, anti-affinity=) are silently skipped,
never reported as parse errors; consequently every string that contains no
`;`, does not trim to the empty string, and has no recognized parameter —
such as `garbage` — parses successfully to base 0 with exactly one rule of
weight 0, empty node selector and no affinity. (Whitespace-only strings and
strings containing `;` escape this clause: they fail or yield several junk
rules; see the counterexample.) -/
theorem C10_unrecognized_params_ignored (s : GoStr)
    (hsemi : ';' ∉ s) (htrim : goTrim s ≠ [])
    (hps : ∀ p ∈ goSplit (goTrim s) ',', recognizedParam (goTrim p) = false) :
    ParsePlacementStrategy s = .ok ⟨0, [⟨0, [], []⟩]⟩ := by
  have hs : ¬(s = []) := by
    intro h
    subst h
    exact htrim rfl
  have hloop := parseFirstRuleLoop_skipsUnrecognized (goSplit (goTrim s) ',') 0 ⟨0, [], []⟩ hps
  simp [ParsePlacementStrategy, hs, goSplit_no_sep s ';' hsemi, parseStrategyLoop, htrim,
    parseFirstRule, hloop]

/-- Witness for C10: the string `garbage` meets every hypothesis and parses
to base 0 with the single junk rule. -/
theorem C10_unrecognized_params_ignored_witness :
    ((';' ∉ gs "garbage") ∧ goTrim (gs "garbage") ≠ [] ∧
      (∀ p ∈ goSplit (goTrim (gs "garbage")) ',', recognizedParam (goTrim p) = false)) ∧
    ParsePlacementStrategy (gs "garbage") = .ok ⟨0, [⟨0, [], []⟩]⟩ :=
  ⟨⟨by decide, by decide, by decide⟩,
    C10_unrecognized_params_ignored (gs "garbage") (by decide) (by decide) (by decide)⟩

/-- Counterexample for C10 as stated: `;`, `a;b` and `" "` are all
non-empty strings with no recognized parameters, yet `;` and the
whitespace-only `" "` fail to parse (every part trims empty, so no rule is
ever added) and `a;b` parses to TWO junk rules, not a single one. -/
theorem C10_degenerate_strings_escape :
    ParsePlacementStrategy (gs ";") = .error (gs "no placement rules found") ∧
    ParsePlacementStrategy (gs " ") = .error (gs "no placement rules found") ∧
    ParsePlacementStrategy (gs "a;b") = .ok ⟨0, [⟨0, [], []⟩, ⟨0, [], []⟩]⟩ ∧
    ([⟨0, [], []⟩, (⟨0, [], []⟩ : PlacementRule)].length ≠ 1) := by
  refine ⟨by decide, by decide, by decide, by decide⟩

/-! ### Policy translator (api/v1 types and convertStrategyToAnnotation) -/

/-- AffinityRuleSpec of the CRD (the fields the translator reads). -/
structure AffinityRuleSpec where
  type : GoStr
  labelSelector : GoMap
  topologyKey : GoStr
  requiredDuringScheduling : Bool
deriving DecidableEq

/-- PlacementRuleSpec of the CRD (name/description are ignored by the
translator and omitted). -/
structure PlacementRuleSpec where
  weight : Int
  nodeSelector : GoMap
  affinity : List AffinityRuleSpec
deriving DecidableEq

/-- PlacementStrategySpec of the CRD (the rebalance sub-policy is not read
by the translator and omitted). -/
structure PlacementStrategySpec where
  base : Int
  rules : List PlacementRuleSpec
deriving DecidableEq

/-- Decimal digit character. -/
def digitChar (d : Nat) : Char :=
  if d = 0 then '0' else if d = 1 then '1' else if d = 2 then '2' else if d = 3 then '3'
  else if d = 4 then '4' else if d = 5 then '5' else if d = 6 then '6' else if d = 7 then '7'
  else if d = 8 then '8' else '9'

/-- Reversed decimal digits of a positive number (fuel-bounded division
loop). -/
def digitsRevFuel : Nat → Nat → List Char
  | 0, _ => []
  | fuel + 1, n => if n = 0 then [] else digitChar (n % 10) :: digitsRevFuel fuel (n / 10)

/-- Go `fmt.Sprintf("%d", n)` for natural numbers. -/
def natToStr (n : Nat) : GoStr :=
  if n = 0 then gs "0" else (digitsRevFuel (n + 1) n).reverse

/-- Go `fmt.Sprintf("%d", n)` for integers. -/
def intToStr (n : Int) : GoStr :=
  if n < 0 then '-' :: natToStr (-n).toNat else natToStr n.toNat

example : intToStr 0 = gs "0" := by decide
example : intToStr 12 = gs "12" := by decide
example : intToStr (-3) = gs "-3" := by decide

/-- The `k:v` comma-joined node-selector fragment the translator builds by
iterating the selector map. -/
def selFragment (sel : GoMap) : GoStr :=
  goJoin (gs ",") (sel.map (fun kv => kv.1 ++ gs ":" ++ kv.2))

/-- The affinity fragment the translator builds for one CRD affinity rule:
`type=` then the FIRST label pair only (the loop breaks after one), then the
topology key and the scheduling mode. -/
def affFragment (a : AffinityRuleSpec) : GoStr :=
  a.type ++ gs "=" ++
    (match a.labelSelector with
      | [] => []
      | (k, v) :: _ => k ++ gs ":" ++ v) ++
    gs ":" ++ a.topologyKey ++
    (if a.requiredDuringScheduling then gs ":required" else gs ":preferred")

/-- The part the translator emits for one non-first rule. -/
def rulePart (r : PlacementRuleSpec) : GoStr :=
  (gs "weight=" ++ intToStr r.weight ++
    (if r.nodeSelector ≠ [] then gs ",nodeSelector=" ++ selFragment r.nodeSelector else [])) ++
  (r.affinity.map (fun a => gs "," ++ affFragment a)).flatten

/-- convertStrategyToAnnotation: builds the first part (with `base=`), one
part per further rule, and returns
`fmt.Sprintf("%s", parts[0]) + ";" + fmt.Sprintf("%s", parts[1:])` — the
second Sprintf prints the Go string SLICE, i.e. `[p1 p2 ...]` with brackets
and space separators. -/
def convertStrategyToAnnotation (strategy : PlacementStrategySpec) : Except GoStr GoStr :=
  match strategy.rules with
  | [] => .error (gs "strategy must have at least one rule")
  | firstRule :: restRules =>
    let firstPart :=
      (gs "base=" ++ intToStr strategy.base ++ gs ",weight=" ++ intToStr firstRule.weight ++
        (if firstRule.nodeSelector ≠ [] then gs ",nodeSelector=" ++ selFragment firstRule.nodeSelector else [])) ++
      (firstRule.affinity.map (fun a => gs "," ++ affFragment a)).flatten
    let restParts := restRules.map rulePart
    .ok (firstPart ++ gs ";" ++ (gs "[" ++ goJoin (gs " ") restParts ++ gs "]"))

example :
    convertStrategyToAnnotation ⟨1, [⟨1, [(gs "node-type", gs "ondemand")], []⟩]⟩ =
      .ok (gs "base=1,weight=1,nodeSelector=node-type:ondemand;[]") := by decide

/-- Claim C3: the translator's emission does not round-trip through the
parser. For the one-rule structured strategy
`{base 1, rules [{weight 1, nodeSelector {node-type: ondemand}}]}` the
emitted annotation ends in `;[]` (Go's `%s` of the empty remainder slice),
and parsing it yields TWO rules — the junk part `[]` becomes an extra rule
of weight 0 with empty selector — so parse(emit(s)) differs from s in rule
count. For the two-rule strategy of the spec's scenario 1 the remainder
slice prints as `[weight=2,nodeSelector=node-type:spot]`, whose leading
`[weight=2` is an unrecognized parameter and whose selector value keeps the
closing bracket: the parsed second rule has weight 0 (not 2) and selector
value `spot]` (not `spot`). -/
theorem C3_roundtrip_broken :
    ( convertStrategyToAnnotation ⟨1, [⟨1, [(gs "node-type", gs "ondemand")], []⟩]⟩ =
      .ok (gs "base=1,weight=1,nodeSelector=node-type:ondemand;[]") ∧
    ParsePlacementStrategy (gs "base=1,weight=1,nodeSelector=node-type:ondemand;[]") =
      .ok ⟨1, [⟨1, [(gs "node-type", gs "ondemand")], []⟩, ⟨0, [], []⟩]⟩ ∧
    ([⟨1, [(gs "node-type", gs "ondemand")], []⟩, (⟨0, [], []⟩ : PlacementRule)].length ≠
      ([⟨1, [(gs "node-type", gs "ondemand")], []⟩] : List PlacementRuleSpec).length)) ∧
    ( convertStrategyToAnnotation
        ⟨1, [⟨1, [(gs "node-type", gs "ondemand")], []⟩, ⟨2, [(gs "node-type", gs "spot")], []⟩]⟩ =
      .ok (gs "base=1,weight=1,nodeSelector=node-type:ondemand;[weight=2,nodeSelector=node-type:spot]") ∧
    ParsePlacementStrategy
        (gs "base=1,weight=1,nodeSelector=node-type:ondemand;[weight=2,nodeSelector=node-type:spot]") =
      .ok ⟨1, [⟨1, [(gs "node-type", gs "ondemand")], []⟩,
        ⟨0, [(gs "node-type", gs "spot]")], []⟩]⟩ ∧
    (0 : Int) ≠ 2 ∧
    gs "spot]" ≠ gs "spot") := by
  refine ⟨⟨by decide, by decide, by decide⟩, ⟨by decide, by decide, by decide, by decide⟩⟩

/-! ### Drift reconciler (rebalance_controller.go) -/

/-- A live pod as the reconciler sees it: name, phase, deletion flag and
node selector. -/
structure ClusterPod where
  name : GoStr
  phase : GoStr
  deleting : Bool
  nodeSelector : GoMap
deriving DecidableEq

/-- Append to one group of a `map[string][]corev1.Pod`. -/
def groupAppend (g : List (GoStr × List ClusterPod)) (k : GoStr) (p : ClusterPod) :
    List (GoStr × List ClusterPod) :=
  match g with
  | [] => [(k, [p])]
  | (k', l) :: rest => if k' = k then (k', l ++ [p]) :: rest else (k', l) :: groupAppend rest k p

/-- Read one group (zero value: the empty list). -/
def groupGet : List (GoStr × List ClusterPod) → GoStr → List ClusterPod
  | [], _ => []
  | (k', l) :: rest, k => if k' = k then l else groupGet rest k

/-- getActualPodCounts: initialize a zero count per rule key, then bucket the
live pods (running or pending, not deleting) whose selector key equals a rule
key exactly (first match wins). -/
def getActualPodCounts (pods : List ClusterPod) (strategy : PlacementStrategy) : GoCounts :=
  let init := strategy.rules.foldl (fun m r => countsSet m (ctrlRuleToString r) 0) []
  pods.foldl
    (fun counts pod =>
      if pod.deleting then counts
      else if pod.phase ≠ gs "Running" && pod.phase ≠ gs "Pending" then counts
      else
        let podKey := ctrlNodeSelector2String pod.nodeSelector
        match strategy.rules.find? (fun r => ctrlRuleToString r = podKey) with
        | some r => countsSet counts (ctrlRuleToString r) (countsGet counts (ctrlRuleToString r) + 1)
        | none => counts)
    init

/-- calculateExpectedDistribution: zero per rule key; all pods on the first
rule while `total ≤ base`, else base on the first rule plus
`int(float64(remaining) * float64(weight) / float64(totalWeight))` added per
rule (exact truncated arithmetic models the float expression). -/
def calculateExpectedDistribution (strategy : PlacementStrategy) (totalPods : Int) : GoCounts :=
  let expected := strategy.rules.foldl (fun m r => countsSet m (ctrlRuleToString r) 0) []
  match strategy.rules with
  | [] => expected
  | firstRule :: _ =>
    if totalPods ≤ strategy.base then
      countsSet expected (ctrlRuleToString firstRule) totalPods
    else
      let expected := countsSet expected (ctrlRuleToString firstRule) strategy.base
      let remaining := totalPods - strategy.base
      let totalWeight := (strategy.rules.map (fun r => r.weight)).sum
      if 0 < totalWeight then
        strategy.rules.foldl
          (fun m r =>
            let k := ctrlRuleToString r
            countsSet m k (countsGet m k + Int.tdiv (remaining * r.weight) totalWeight))
          expected
      else expected

/-- DriftReport (expected and actual counts, drift percentage, rebalance
flag). -/
structure DriftReport where
  expectedCounts : GoCounts
  actualCounts : GoCounts
  driftPercentage : ℚ
  requiresRebalance : Bool
deriving DecidableEq

/-- calculateDrift: drift percentage `100 · Σ |expected − actual| / Σ expected`
over the expected-counts entries, rebalance required above 20%. The float64
quotient is modelled as the exact rational `mkRat (100 · Σ|…|) (Σ expected)`. -/
def calculateDrift (strategy : PlacementStrategy) (stateTotalPods : Int)
    (pods : List ClusterPod) : DriftReport :=
  let actualCounts := getActualPodCounts pods strategy
  let expectedCounts := calculateExpectedDistribution strategy stateTotalPods
  let totalDrift : Int := (expectedCounts.map (fun kv => |kv.2 - countsGet actualCounts kv.1|)).sum
  let totalExpected : Int := (expectedCounts.map (fun kv => kv.2)).sum
  let driftPercentage : ℚ :=
    if 0 < totalExpected then mkRat (totalDrift * 100) totalExpected.toNat else 0
  ⟨expectedCounts, actualCounts, driftPercentage, driftPercentage > 20⟩

/-- selectPodsForRebalancing: group running, non-deleting pods by the
controller's selector key, then for every actual-counts entry exceeding its
expected count take the first `excess` pods of that group. -/
def selectPodsForRebalancing (pods : List ClusterPod) (drift : DriftReport) : List ClusterPod :=
  let podsByRule := pods.foldl
    (fun g pod =>
      if pod.deleting then g
      else if pod.phase ≠ gs "Running" then g
      else groupAppend g (ctrlNodeSelector2String pod.nodeSelector) pod)
    []
  drift.actualCounts.foldl
    (fun acc kv =>
      let expected := countsGet drift.expectedCounts kv.1
      if kv.2 > expected then
        acc ++ (groupGet podsByRule kv.1).take (kv.2 - expected).toNat
      else acc)
    []

/-- Deletion loop of performRebalancing: delete at most `budget` pods,
skipping pods already deleting and pods whose delete call fails. -/
def rebalanceDeleteLoop (deleteOk : GoStr → Bool) : List ClusterPod → Nat → List GoStr
  | [], _ => []
  | _, 0 => []
  | p :: ps, budget + 1 =>
    if p.deleting then rebalanceDeleteLoop deleteOk ps (budget + 1)
    else if deleteOk p.name then p.name :: rebalanceDeleteLoop deleteOk ps budget
    else rebalanceDeleteLoop deleteOk ps (budget + 1)

/-- performRebalancing: the names of the pods deleted in one pass
(`maxDeletions = 1`); one rebalance event is emitted per name. -/
def performRebalancingDeletions (pods : List ClusterPod) (drift : DriftReport)
    (deleteOk : GoStr → Bool) : List GoStr :=
  rebalanceDeleteLoop deleteOk (selectPodsForRebalancing pods drift) 1

/-- One reconcile pass of the drift reconciler, from the drift computation to
the deletions: rebalancing runs whenever the drift report requires it. The
pass reads NO clock and NO time window anywhere. -/
def rebalancePassDeletions (strategy : PlacementStrategy) (stateTotalPods : Int)
    (pods : List ClusterPod) (deleteOk : GoStr → Bool) : List GoStr :=
  let drift := calculateDrift strategy stateTotalPods pods
  if drift.requiresRebalance then performRebalancingDeletions pods drift deleteOk
  else []

/-- Modelled from the spec: the rebalance time-window gate. No code in the
repository reads `TimeWindowSpec` (it is declared in
api/v1/podplacementpolicy_types.go and never consulted); the spec says
rebalance deletions may happen only when the current wall-clock time in the
window's timezone falls on a listed weekday with
start_time ≤ time < end_time. -/
def inRebalanceWindow (days : List GoStr) (startMin endMin : Nat)
    (weekday : GoStr) (minuteOfDay : Nat) : Bool :=
  days.contains weekday && (decide (startMin ≤ minuteOfDay) && decide (minuteOfDay < endMin))

/-- The ten live pods of the drift scenario: eight running on-demand pods
and two running spot pods. -/
def scenarioPods : List ClusterPod :=
  [⟨gs "od-0", gs "Running", false, [(gs "node-type", gs "ondemand")]⟩,
   ⟨gs "od-1", gs "Running", false, [(gs "node-type", gs "ondemand")]⟩,
   ⟨gs "od-2", gs "Running", false, [(gs "node-type", gs "ondemand")]⟩,
   ⟨gs "od-3", gs "Running", false, [(gs "node-type", gs "ondemand")]⟩,
   ⟨gs "od-4", gs "Running", false, [(gs "node-type", gs "ondemand")]⟩,
   ⟨gs "od-5", gs "Running", false, [(gs "node-type", gs "ondemand")]⟩,
   ⟨gs "od-6", gs "Running", false, [(gs "node-type", gs "ondemand")]⟩,
   ⟨gs "od-7", gs "Running", false, [(gs "node-type", gs "ondemand")]⟩,
   ⟨gs "sp-0", gs "Running", false, [(gs "node-type", gs "spot")]⟩,
   ⟨gs "sp-1", gs "Running", false, [(gs "node-type", gs "spot")]⟩]

/-- The scenario strategy `base=1,weight=1:ondemand;weight=2:spot`. -/
def scenarioStrategy : PlacementStrategy :=
  ⟨1, [⟨1, [(gs "node-type", gs "ondemand")], []⟩, ⟨2, [(gs "node-type", gs "spot")], []⟩]⟩

/-- Claim C7: at the spec's scenario — the strategy above, 10 live running
pods split 8 ondemand / 2 spot (state total 10), rebalance window Mon–Fri
02:00–04:00 UTC, current time Saturday 12:00 UTC (outside the window) — the
reconcile pass still deletes a pod: drift IS computed (80% > 20%, expected
4 ondemand / 6 spot) and one ondemand pod IS deleted, although the claim
requires no deletions outside the window. No code of the repository consults
`TimeWindowSpec`, and `rebalancePassDeletions` takes no clock input, so its
result is the same at every wall-clock instant. -/
theorem C7_window_never_gates_deletions :
    inRebalanceWindow [gs "Mon", gs "Tue", gs "Wed", gs "Thu", gs "Fri"] 120 240
      (gs "Sat") 720 = false ∧
    (calculateDrift scenarioStrategy 10 scenarioPods).driftPercentage = 80 ∧
    (calculateDrift scenarioStrategy 10 scenarioPods).requiresRebalance = true ∧
    rebalancePassDeletions scenarioStrategy 10 scenarioPods (fun _ => true) = [gs "od-0"] := by
  refine ⟨by decide, by decide, by decide, by decide⟩

/-! ### State manager (webhook StateManager over ConfigMaps) -/

/-- The annotation key carrying the strategy. -/
def strategyAnnKey : GoStr := gs "smart-scheduler.io/schedule-strategy"

/-- The parts of a Deployment the webhook and state manager read. -/
structure Deployment where
  name : GoStr
  annotations : Option GoMap
deriving DecidableEq

/-- The strategy annotation of a deployment (`""` when absent, as a Go nil
map read). -/
def depStrategyAnn (dep : Deployment) : GoStr :=
  match dep.annotations with
  | none => []
  | some m => mapGet m strategyAnnKey

/-- PlacementState persisted per deployment. -/
structure PlacementState where
  deploymentName : GoStr
  deploymentNamespace : GoStr
  strategy : PlacementStrategy
  podCounts : GoCounts
  totalPods : Int
  lastUpdated : Nat
deriving DecidableEq

/-- Outcome the external store gives every Create/Update call of the
current reconcile (version conflicts arise from concurrent writers). -/
inductive UpdateOutcome where
  | ok
  | conflict
  | err
deriving DecidableEq

/-- The external cluster as the state manager sees it: the backing ConfigMap
(`none` = not found, `some none` = present but without parseable
placement-state data), a transport-error flag for reads, the live pods and a
pod-list failure flag, the store's answer to writes, and the clock. -/
structure KubeEnv where
  cm : Option (Option PlacementState)
  getCMErr : Bool
  listErr : Bool
  pods : List ClusterPod
  updateOutcome : UpdateOutcome
  now : Nat
deriving DecidableEq

/-- isNodeSelectorSubset: every entry of the rule's selector appears with the
same value in the pod's selector (an empty rule selector matches any pod; a
non-empty one never matches an empty pod selector). -/
def isNodeSelectorSubset (ruleSel podSel : GoMap) : Bool :=
  if ruleSel = [] then true
  else if podSel = [] then false
  else ruleSel.all (fun kv => mapHas podSel kv.1 && (mapGet podSel kv.1 = kv.2 : Bool))

/-- The pod-bucketing shared by getCurrentPodCounts and getBasicPodCounts:
zero per rule key, then each live (running or pending, non-deleting) pod
counts for the first rule whose key equals the pod's selector key or whose
selector is a subset of the pod's. -/
def smBucketPods (pods : List ClusterPod) (strategy : PlacementStrategy) : GoCounts :=
  let init := strategy.rules.foldl (fun m r => countsSet m (ruleToString r) 0) []
  pods.foldl
    (fun counts pod =>
      if pod.deleting then counts
      else if pod.phase ≠ gs "Running" && pod.phase ≠ gs "Pending" then counts
      else
        match strategy.rules.find? (fun r =>
          (ruleToString r = nodeSelector2String pod.nodeSelector : Bool) ||
            isNodeSelectorSubset r.nodeSelector pod.nodeSelector) with
        | some r => countsSet counts (ruleToString r) (countsGet counts (ruleToString r) + 1)
        | none => counts)
    init

/-- getCurrentPodCounts: list the deployment's live pods and bucket them by
rule (fails when the pod list fails). -/
def getCurrentPodCounts (env : KubeEnv) (strategy : PlacementStrategy) :
    Except GoStr GoCounts :=
  if env.listErr then .error (gs "failed to list pods")
  else .ok (smBucketPods env.pods strategy)

/-- UpdatePlacementState: stamp the state with the current time, then create
or update the backing ConfigMap under optimistic concurrency (the read for
the resource version is subject to the same transport flag). -/
def UpdatePlacementState (state : PlacementState) (env : KubeEnv) :
    (Except UpdateOutcome Unit) × KubeEnv :=
  let state := { state with lastUpdated := env.now }
  if env.getCMErr then (.error .err, env)
  else
    match env.updateOutcome with
    | .ok => (.ok (), { env with cm := some (some state) })
    | .conflict => (.error .conflict, env)
    | .err => (.error .err, env)

/-- createInitialState: bucket the live pods, build the initial state and
write it back best-effort (a failed write keeps the in-memory state). -/
def createInitialState (dep : Deployment) (strategy : PlacementStrategy) (env : KubeEnv) :
    (Except GoStr PlacementState) × KubeEnv :=
  match getCurrentPodCounts env strategy with
  | .error e => (.error (gs "failed to get initial pod counts: " ++ e), env)
  | .ok counts =>
    let state : PlacementState :=
      ⟨dep.name, [], strategy, counts, countsTotal counts, env.now⟩
    let (_, env') := UpdatePlacementState state env
    (.ok state, env')

/-- GetPlacementState: fetch the backing ConfigMap (absent or corrupt ⇒
synthesize initial state); refresh the counts from the live pod list when
that list is available, otherwise keep the cached counts. -/
def GetPlacementState (dep : Deployment) (strategy : PlacementStrategy) (env : KubeEnv) :
    (Except GoStr PlacementState) × KubeEnv :=
  if env.getCMErr then (.error (gs "failed to get placement state ConfigMap"), env)
  else
    match env.cm with
    | none => createInitialState dep strategy env
    | some none => createInitialState dep strategy env
    | some (some stored) =>
      let stored := { stored with strategy := strategy }
      match getCurrentPodCounts env strategy with
      | .error _ => (.ok stored, env)
      | .ok actual =>
        let refreshed := { stored with podCounts := actual, totalPods := countsTotal actual, lastUpdated := env.now }
        (.ok refreshed, env)

/-- Retry loop of IncrementPodCount (three attempts, retrying only on
version conflict). -/
def incrementLoop (dep : Deployment) (ruleKey : GoStr) : Nat → KubeEnv →
    (Except GoStr Unit) × KubeEnv
  | 0, env => (.error (gs "failed to increment pod count after 3 retries"), env)
  | n + 1, env =>
    match ParsePlacementStrategy (depStrategyAnn dep) with
    | .error e => (.error (gs "failed to parse strategy: " ++ e), env)
    | .ok strategy =>
      match GetPlacementState dep strategy env with
      | (.error e, env') => (.error (gs "failed to get placement state: " ++ e), env')
      | (.ok state, env') =>
        let state' := { state with
          podCounts := countsSet state.podCounts ruleKey (countsGet state.podCounts ruleKey + 1),
          totalPods := state.totalPods + 1 }
        match UpdatePlacementState state' env' with
        | (.ok _, env'') => (.ok (), env'')
        | (.error .conflict, env'') => incrementLoop dep ruleKey n env''
        | (.error _, env'') => (.error (gs "update failed"), env'')

/-- IncrementPodCount: read (re-parsing the deployment's annotation),
increment the named counter and the total by one, write back, retrying up to
three times on conflict. -/
def IncrementPodCount (dep : Deployment) (ruleKey : GoStr) (env : KubeEnv) :
    (Except GoStr Unit) × KubeEnv :=
  incrementLoop dep ruleKey 3 env

/-- The total the store currently holds for the workload, when a parseable
state object exists. -/
def storedTotal (env : KubeEnv) : Option Int :=
  match env.cm with
  | some (some st) => some st.totalPods
  | _ => none

/-- Run `n` increments, succeeding only if every call succeeds. -/
def repeatedIncrementOk (dep : Deployment) (ruleKey : GoStr) : Nat → KubeEnv → Option KubeEnv
  | 0, env => some env
  | n + 1, env =>
    match IncrementPodCount dep ruleKey env with
    | (.ok _, env') => repeatedIncrementOk dep ruleKey n env'
    | (.error _, _) => none

/-- The state one cached-counts increment writes back: same identity, the
freshly parsed strategy, the named counter and total bumped by one, stamped
with the current time. -/
def cachedIncrementedState (g : PlacementStrategy) (st : PlacementState)
    (ruleKey : GoStr) (now : Nat) : PlacementState :=
  { st with
    strategy := g
    podCounts := countsSet st.podCounts ruleKey (countsGet st.podCounts ruleKey + 1)
    totalPods := st.totalPods + 1
    lastUpdated := now }

/-- One successful increment against a store whose pod-list refresh is
unavailable: the cached counts are kept, the named counter and the total each
grow by one, and the new state is written back. -/
theorem incrementStep (dep : Deployment) (ruleKey : GoStr) (g : PlacementStrategy)
    (st : PlacementState) (pods : List ClusterPod) (now : Nat)
    (hann : ParsePlacementStrategy (depStrategyAnn dep) = .ok g) :
    IncrementPodCount dep ruleKey ⟨some (some st), false, true, pods, .ok, now⟩ =
      (.ok (), ⟨some (some (cachedIncrementedState g st ruleKey now)), false, true, pods, .ok, now⟩) := by
  simp [IncrementPodCount, incrementLoop, hann, GetPlacementState, getCurrentPodCounts,
    UpdatePlacementState, cachedIncrementedState]

/-- Claim C9 (amended): over any sequence of n increment calls against a
store holding a parseable state object, made while the live-pod refresh is
unavailable (the pod list fails, so cached counts are used) and writes
succeed, every call succeeds and the stored total_pods afterwards equals the
total_pods before plus n. (When the refresh IS available, each read first
overwrites the stored counts with the live bucketing, so successive
increments do not accumulate; see the counterexample.) -/
theorem C9_successful_increments_add (dep : Deployment) (ruleKey : GoStr)
    (g : PlacementStrategy) (hann : ParsePlacementStrategy (depStrategyAnn dep) = .ok g) :
    ∀ (n : Nat) (st : PlacementState) (pods : List ClusterPod) (now : Nat),
      ∃ env' : KubeEnv,
        repeatedIncrementOk dep ruleKey n ⟨some (some st), false, true, pods, .ok, now⟩ =
          some env' ∧
        storedTotal env' = some (st.totalPods + n) := by
  intro n
  induction n with
  | zero =>
    intro st pods now
    exact ⟨⟨some (some st), false, true, pods, .ok, now⟩, rfl, by simp [storedTotal]⟩
  | succ n ih =>
    intro st pods now
    have hstep := incrementStep dep ruleKey g st pods now hann
    obtain ⟨env', h1, h2⟩ := ih (cachedIncrementedState g st ruleKey now) pods now
    refine ⟨env', ?_, ?_⟩
    · simp only [repeatedIncrementOk, hstep]
      exact h1
    · rw [h2]
      simp only [cachedIncrementedState]
      congr 1
      push_cast
      ring

/-- Witness for C9: three increments for a workload with annotation
`weight=1,nodeSelector=a:b` against a stored total of 5 (refresh
unavailable) all succeed and leave the stored total at 5 + 3. -/
theorem C9_successful_increments_add_witness :
    ∃ env' : KubeEnv,
      repeatedIncrementOk ⟨gs "app", some [(strategyAnnKey, gs "weight=1,nodeSelector=a:b")]⟩
          (gs "a=b") 3
          ⟨some (some ⟨gs "app", [], ⟨0, [⟨1, [(gs "a", gs "b")], []⟩]⟩, [(gs "a=b", 5)], 5, 0⟩),
            false, true, [], .ok, 0⟩ =
        some env' ∧
      storedTotal env' = some ((5 : Int) + ((3 : Nat) : Int)) :=
  C9_successful_increments_add
    ⟨gs "app", some [(strategyAnnKey, gs "weight=1,nodeSelector=a:b")]⟩ (gs "a=b")
    ⟨0, [⟨1, [(gs "a", gs "b")], []⟩]⟩ (by decide) 3
    ⟨gs "app", [], ⟨0, [⟨1, [(gs "a", gs "b")], []⟩]⟩, [(gs "a=b", 5)], 5, 0⟩ [] 0

/-- Counterexample for C9 as stated: with the live-pod refresh AVAILABLE (an
empty pod list), every read resets the counts to the ground-truth bucketing
before incrementing, so after two successful increments on a stored total of
5 the stored total is 1, not 5 + 2. -/
theorem C9_refresh_resets_counts :
    (repeatedIncrementOk ⟨gs "app", some [(strategyAnnKey, gs "weight=1,nodeSelector=a:b")]⟩
        (gs "a=b") 2
        ⟨some (some ⟨gs "app", [], ⟨0, [⟨1, [(gs "a", gs "b")], []⟩]⟩, [(gs "a=b", 5)], 5, 0⟩),
          false, false, [], .ok, 1⟩).map storedTotal = some (some 1) ∧
    (1 : Int) ≠ 5 + 2 := by
  refine ⟨by decide, by decide⟩

/-! ### Admission mutator (webhook/mutate_pod.go, current version) -/

/-- The JSON-patch operations createPatch can emit. -/
inductive PatchOp where
  | replaceNodeSelector (value : GoMap)
  | removeNodeSelector
  | replaceAffinity (value : AffinityBlock)
  | removeAffinity
  | replaceAnnotations (value : GoMap)
  | removeAnnotations
deriving DecidableEq

/-- An admission response: unmodified allow (with a reason message), a patch
response carrying the patch and the resulting pod, or an error response with
an HTTP code (`admission.Errored`). -/
inductive AdmResponse where
  | allowed (reason : GoStr)
  | patched (patch : List PatchOp) (finalPod : Pod)
  | errored (code : Nat) (msg : GoStr)
deriving DecidableEq

/-- Go map equality as the source checks it: equal sizes and every entry of
the first found in the second. -/
def goMapsEqual (a b : GoMap) : Bool :=
  (a.length = b.length : Bool) && a.all (fun kv => mapHas b kv.1 && (mapGet b kv.1 = kv.2 : Bool))

/-- nodeSelectorsEqual (nil and empty maps coincide under `len`). -/
def nodeSelectorsEqual (a b : Option GoMap) : Bool :=
  goMapsEqual (a.getD []) (b.getD [])

/-- affinityEqual: nil checks, then a deep comparison (the source compares
JSON marshallings; on this model that is structural equality). -/
def affinityEqual (a b : Option AffinityBlock) : Bool :=
  match a, b with
  | none, none => true
  | none, some _ => false
  | some _, none => false
  | some x, some y => x = y

/-- annotationsEqual. -/
def annotationsEqual (a b : Option GoMap) : Bool :=
  goMapsEqual (a.getD []) (b.getD [])

/-- createPatch: replace/remove operations for the node selector, the
affinity block and the annotations, emitted only where original and modified
differ. -/
def createPatch (original modified : Pod) : List PatchOp :=
  (if ¬nodeSelectorsEqual original.nodeSelector modified.nodeSelector then
    match modified.nodeSelector with
    | none => [PatchOp.removeNodeSelector]
    | some v => [PatchOp.replaceNodeSelector v]
  else []) ++
  (if ¬affinityEqual original.affinity modified.affinity then
    match modified.affinity with
    | none => [PatchOp.removeAffinity]
    | some v => [PatchOp.replaceAffinity v]
  else []) ++
  (if ¬annotationsEqual original.annotations modified.annotations then
    match modified.annotations with
    | none => [PatchOp.removeAnnotations]
    | some v => [PatchOp.replaceAnnotations v]
  else [])

/-- Set one pod annotation, creating the map if absent. -/
def setAnn (p : Pod) (k v : GoStr) : Pod :=
  { p with annotations := some (mapInsert (p.annotations.getD []) k v) }

/-- getAppliedRuleKey: collect the node-selector entries the mutation added
or changed, return the key of the first strategy rule whose selector is a
subset of them, falling back to the collected entries' own key. -/
def getAppliedRuleKey (originalPod modifiedPod : Pod) (strategy : PlacementStrategy) : GoStr :=
  let appliedNodeSelector := (modifiedPod.nodeSelector.getD []).foldl
    (fun m kv =>
      if originalPod.nodeSelector = none ||
          (mapGet (originalPod.nodeSelector.getD []) kv.1 ≠ kv.2 : Bool) then
        mapInsert m kv.1 kv.2
      else m)
    []
  match strategy.rules.find? (fun r => isNodeSelectorSubset r.nodeSelector appliedNodeSelector) with
  | some r => ruleToString r
  | none => nodeSelector2String appliedNodeSelector

/-- getBasicPodCounts: the degraded live-list counting used when the state
manager fails. -/
def getBasicPodCounts (env : KubeEnv) (strategy : PlacementStrategy) :
    Except GoStr GoCounts :=
  if env.listErr then .error (gs "failed to list pods")
  else .ok (smBucketPods env.pods strategy)

/-- allowWithFallback: allow the request unmodified with a warning reason. -/
def allowWithFallback (reason : GoStr) : AdmResponse :=
  .allowed (gs "SmartScheduler fallback: " ++ reason)

/-- applyStrategyWithFallback: the degraded path run when the state store
read fails — count pods by a direct live list, apply the strategy, mark the
pod `processed` and `fallback-mode`, and patch; any failure allows
unmodified. -/
def applyStrategyWithFallback (pod : Pod) (strategy : PlacementStrategy) (env : KubeEnv) :
    AdmResponse × KubeEnv :=
  match getBasicPodCounts env strategy with
  | .error _ => (allowWithFallback (gs "failed to get pod counts"), env)
  | .ok currentCounts =>
    match ApplyPlacementStrategy pod strategy currentCounts with
    | .error _ => (allowWithFallback (gs "failed to apply strategy in fallback"), env)
    | .ok pod1 =>
      let pod2 := setAnn (setAnn pod1 (gs "smart-scheduler.io/processed") (gs "true"))
        (gs "smart-scheduler.io/fallback-mode") (gs "true")
      (.patched (createPatch pod pod2) pod2, env)

/-- Handle: the pod mutator's admission entry point. The decode result and
the owner-chain lookup result are inputs (`none` decoded bytes model a decode
failure; the lookup may fail, return no deployment, or return the owning
deployment). -/
def Handle (decoded : Option Pod) (parentRes : Except Unit (Option Deployment))
    (env : KubeEnv) : AdmResponse × KubeEnv :=
  match decoded with
  | none => (.errored 400 (gs "failed to decode pod"), env)
  | some pod =>
    if (pod.annotations.getD []).length > 0 &&
        mapHas (pod.annotations.getD []) (gs "smart-scheduler.io/processed") then
      (.allowed [], env)
    else if pod.ownerRefCount = 0 then (.allowed [], env)
    else
      match parentRes with
      | .error _ => (allowWithFallback (gs "failed to find parent deployment"), env)
      | .ok none => (.allowed [], env)
      | .ok (some dep) =>
        match dep.annotations with
        | none => (.allowed [], env)
        | some anns =>
          if ¬mapHas anns strategyAnnKey then (.allowed [], env)
          else
            let scheduleStrategy := mapGet anns strategyAnnKey
            match ParsePlacementStrategy scheduleStrategy with
            | .error _ => (allowWithFallback (gs "invalid placement strategy"), env)
            | .ok strategy =>
              match GetPlacementState dep strategy env with
              | (.error _, env1) => applyStrategyWithFallback pod strategy env1
              | (.ok placementState, env1) =>
                match ApplyPlacementStrategy pod strategy placementState.podCounts with
                | .error _ => (allowWithFallback (gs "failed to apply placement strategy"), env1)
                | .ok pod1 =>
                  let appliedRuleKey := getAppliedRuleKey pod pod1 strategy
                  let pod2 := setAnn (setAnn (setAnn pod1
                    (gs "smart-scheduler.io/processed") (gs "true"))
                    (gs "smart-scheduler.io/strategy-applied") scheduleStrategy)
                    (gs "smart-scheduler.io/placement-rule") appliedRuleKey
                  let env2 :=
                    if appliedRuleKey ≠ [] then (IncrementPodCount dep appliedRuleKey env1).2
                    else env1
                  (.patched (createPatch pod pod2) pod2, env2)

/-- A response is fail-open when it is an allow or a patch, never an error
response. -/
def responseIsFailOpen : AdmResponse → Bool
  | .allowed _ => true
  | .patched _ _ => true
  | .errored _ _ => false

/-- The pod the cluster ends up admitting: the patched pod for a patch
response, the original pod otherwise. -/
def admittedPod (original : Pod) : AdmResponse → Pod
  | .patched _ p => p
  | _ => original

/-- Claim C1 (amended): for every admission request whose pod bytes decode,
whatever the owner-chain lookup result and whatever the cluster state — the
strategy annotation may be malformed, the state-store read or write may fail,
the pod list may fail — the mutator's response is an unmodified allow or a
patch allow, never an error response. (Requests whose pod bytes FAIL to
decode are the exception: they return `admission.Errored(400)`; see the
counterexample.) -/
theorem C1_decoded_requests_fail_open (pod : Pod) (parentRes : Except Unit (Option Deployment))
    (env : KubeEnv) : responseIsFailOpen (Handle (some pod) parentRes env).1 = true := by
  simp only [Handle, applyStrategyWithFallback, allowWithFallback]
  repeat' split
  all_goals rfl

/-- Witness for C1: a concrete ownerless pod admitted against an empty
cluster is allowed unmodified. -/
theorem C1_decoded_requests_fail_open_witness :
    responseIsFailOpen (Handle (some ⟨none, 0, none, none⟩) (.ok none)
      ⟨none, false, false, [], .ok, 0⟩).1 = true :=
  C1_decoded_requests_fail_open ⟨none, 0, none, none⟩ (.ok none) ⟨none, false, false, [], .ok, 0⟩

/-- Counterexample for C1 as stated: a request whose pod bytes fail to
decode is answered with `admission.Errored(http.StatusBadRequest, err)` — an
error response, not an allow. -/
theorem C1_decode_failure_errors :
    (Handle none (.ok none) ⟨none, false, false, [], .ok, 0⟩).1 =
      .errored 400 (gs "failed to decode pod") ∧
    responseIsFailOpen (Handle none (.ok none) ⟨none, false, false, [], .ok, 0⟩).1 = false := by
  refine ⟨by decide, by decide⟩

/-- All values of a counts map are nonnegative. -/
def countsNonneg (m : GoCounts) : Prop := ∀ kv ∈ m, 0 ≤ kv.2

/-- Reads from a nonnegative counts map are nonnegative. -/
theorem countsGet_nonneg (m : GoCounts) (h : countsNonneg m) (k : GoStr) :
    0 ≤ countsGet m k := by
  induction m with
  | nil => simp [countsGet]
  | cons kv rest ih =>
    by_cases hk : kv.1 = k
    · simpa [countsGet, hk] using h kv (List.mem_cons_self kv rest)
    · simpa [countsGet, hk] using ih (fun x hx => h x (List.mem_cons_of_mem kv hx))

/-- Setting a nonnegative value preserves nonnegativity. -/
theorem countsNonneg_set (m : GoCounts) (h : countsNonneg m) (k : GoStr) (v : Int)
    (hv : 0 ≤ v) : countsNonneg (countsSet m k v) := by
  induction m with
  | nil =>
    intro kv hkv
    simp [countsSet] at hkv
    simp [hkv, hv]
  | cons e rest ih =>
    intro kv hkv
    by_cases he : e.1 = k
    · simp [countsSet, he] at hkv
      rcases hkv with rfl | hm
      · exact hv
      · exact h kv (List.mem_cons_of_mem e hm)
    · simp [countsSet, he] at hkv
      rcases hkv with rfl | hm
      · exact h kv (List.mem_cons_self kv rest)
      · exact ih (fun x hx => h x (List.mem_cons_of_mem e hx)) kv hm

/-- The zero-initialisation fold keeps counts nonnegative. -/
theorem countsNonneg_initFold (rules : List PlacementRule) (m : GoCounts)
    (h : countsNonneg m) :
    countsNonneg (rules.foldl (fun m r => countsSet m (ruleToString r) 0) m) := by
  induction rules generalizing m with
  | nil => exact h
  | cons r rest ih => exact ih _ (countsNonneg_set m h (ruleToString r) 0 le_rfl)

/-- The bucketing of live pods yields nonnegative counts. -/
theorem smBucketPods_nonneg (pods : List ClusterPod) (strategy : PlacementStrategy) :
    countsNonneg (smBucketPods pods strategy) := by
  unfold smBucketPods
  generalize hinit : strategy.rules.foldl (fun m r => countsSet m (ruleToString r) 0) [] = init
  have h0 : countsNonneg init := by
    rw [← hinit]
    exact countsNonneg_initFold strategy.rules [] (by intro kv h; simp at h)
  clear hinit
  induction pods generalizing init with
  | nil => exact h0
  | cons p rest ih =>
    refine ih _ ?_
    by_cases hdel : p.deleting
    · simpa [hdel] using h0
    · by_cases hph : (¬p.phase = gs "Running" ∧ ¬p.phase = gs "Pending")
      · simpa [hdel, hph] using h0
      · rcases hfind : strategy.rules.find? (fun r =>
            (ruleToString r = nodeSelector2String p.nodeSelector : Bool) ||
              isNodeSelectorSubset r.nodeSelector p.nodeSelector) with _ | r
        · simpa [hdel, hph, hfind] using h0
        · have := countsNonneg_set init h0 (ruleToString r)
            (countsGet init (ruleToString r) + 1)
            (by have := countsGet_nonneg init h0 (ruleToString r); omega)
          simpa [hdel, hph, hfind] using this

/-- The total of a nonnegative counts map is nonnegative. -/
theorem countsTotal_nonneg (m : GoCounts) (h : countsNonneg m) : 0 ≤ countsTotal m := by
  induction m with
  | nil => simp [countsTotal]
  | cons kv rest ih =>
    have h1 := h kv (List.mem_cons_self kv rest)
    have h2 := ih (fun x hx => h x (List.mem_cons_of_mem kv hx))
    simp only [countsTotal, List.map_cons, List.sum_cons] at h2 ⊢
    omega

/-- A well-formed store: any state object it holds has nonnegative counts. -/
def envWF (env : KubeEnv) : Prop :=
  ∀ st : PlacementState, env.cm = some (some st) → countsNonneg st.podCounts

/-- Any state GetPlacementState hands out of a well-formed store has
nonnegative counts (fresh bucketings are nonnegative; cached counts are
nonnegative by well-formedness). -/
theorem getState_nonneg (dep : Deployment) (g : PlacementStrategy) (env : KubeEnv)
    (hwf : envWF env) (st : PlacementState) (env' : KubeEnv)
    (h : GetPlacementState dep g env = (.ok st, env')) : countsNonneg st.podCounts := by
  obtain ⟨cm, gERR, lERR, pods, upd, now⟩ := env
  rcases gERR with _ | _
  · rcases cm with _ | ocm
    · rcases lERR with _ | _
      · simp only [GetPlacementState, createInitialState, getCurrentPodCounts] at h
        simp only [Bool.false_eq_true, if_false] at h
        obtain ⟨h1, _⟩ := Prod.mk.injEq .. ▸ h
        cases Except.ok.injEq .. ▸ h1.symm
        exact smBucketPods_nonneg pods g
      · simp [GetPlacementState, createInitialState, getCurrentPodCounts] at h
    · rcases ocm with _ | stored
      · rcases lERR with _ | _
        · simp only [GetPlacementState, createInitialState, getCurrentPodCounts] at h
          simp only [Bool.false_eq_true, if_false] at h
          obtain ⟨h1, _⟩ := Prod.mk.injEq .. ▸ h
          cases Except.ok.injEq .. ▸ h1.symm
          exact smBucketPods_nonneg pods g
        · simp [GetPlacementState, createInitialState, getCurrentPodCounts] at h
      · rcases lERR with _ | _
        · simp [GetPlacementState, getCurrentPodCounts] at h
          obtain ⟨h1, h2⟩ := h
          subst h1
          simpa using smBucketPods_nonneg pods g
        · simp [GetPlacementState, getCurrentPodCounts] at h
          obtain ⟨h1, h2⟩ := h
          subst h1
          simpa using hwf stored rfl
  · exact absurd h (by simp [GetPlacementState])

/-- The strategy `garbage` parses to: base 0, one rule of weight 0 with an
empty selector. -/
theorem garbage_parses : ParsePlacementStrategy (gs "garbage") = .ok ⟨0, [⟨0, [], []⟩]⟩ := by
  decide

/-- Applying the zero-weight single-rule strategy to nonnegative counts
always fails with `total weight is zero` (the total is at least the base 0,
so the weighted path runs and finds W = 0). -/
theorem applyStrategy_zeroWeight_errors (pod : Pod) (counts : GoCounts)
    (h : 0 ≤ countsTotal counts) :
    ApplyPlacementStrategy pod ⟨0, [⟨0, [], []⟩]⟩ counts = .error (gs "total weight is zero") := by
  have h2 : ¬(countsTotal counts < (0 : Int)) := not_lt.mpr h
  simp [ApplyPlacementStrategy, applyWeightedRule, applyWeightedChoice, h2, Except.map]

/-- Claim C5 (amended): admitting a pod whose owning workload carries the
annotation `garbage` yields an unmodified allow — the annotation parses (to a
single weight-0 rule), applying it fails with `total weight is zero`, and
every failure path answers through allowWithFallback, which allows WITHOUT a
patch; in particular the admitted pod is the original pod: its node selector
is unchanged and it carries NO fallback-mode annotation. (Stores holding
negative counts are excluded: a negative total would take the base path and
patch the pod.) -/
theorem C5_garbage_annotation_allows_unmodified (pod : Pod) (dep : Deployment)
    (env : KubeEnv) (anns : GoMap)
    (hwf : envWF env)
    (hproc : mapHas (pod.annotations.getD []) (gs "smart-scheduler.io/processed") = false)
    (howner : pod.ownerRefCount ≠ 0)
    (hdep : dep.annotations = some anns)
    (hhas : mapHas anns strategyAnnKey = true)
    (hval : mapGet anns strategyAnnKey = gs "garbage") :
    ∃ (reason : GoStr) (env' : KubeEnv),
      Handle (some pod) (.ok (some dep)) env = (.allowed reason, env') ∧
      admittedPod pod (Handle (some pod) (.ok (some dep)) env).1 = pod := by
  rcases hg : GetPlacementState dep ⟨0, [⟨0, [], []⟩]⟩ env with ⟨res, env1⟩
  rcases res with e | st
  · by_cases hl : env1.listErr
    · refine ⟨gs "SmartScheduler fallback: failed to get pod counts", env1, ?_, ?_⟩ <;>
        simp [Handle, hproc, howner, hdep, hhas, hval, garbage_parses, hg,
          applyStrategyWithFallback, getBasicPodCounts, hl, allowWithFallback, admittedPod] <;>
        decide
    · have happly := applyStrategy_zeroWeight_errors pod (smBucketPods env1.pods ⟨0, [⟨0, [], []⟩]⟩)
        (countsTotal_nonneg _ (smBucketPods_nonneg env1.pods ⟨0, [⟨0, [], []⟩]⟩))
      refine ⟨gs "SmartScheduler fallback: failed to apply strategy in fallback", env1, ?_, ?_⟩ <;>
        simp [Handle, hproc, howner, hdep, hhas, hval, garbage_parses, hg,
          applyStrategyWithFallback, getBasicPodCounts, hl, happly, allowWithFallback, admittedPod] <;>
        decide
  · have hnn := getState_nonneg dep ⟨0, [⟨0, [], []⟩]⟩ env hwf st env1 hg
    have happly := applyStrategy_zeroWeight_errors pod st.podCounts (countsTotal_nonneg _ hnn)
    refine ⟨gs "SmartScheduler fallback: failed to apply placement strategy", env1, ?_, ?_⟩ <;>
      simp [Handle, hproc, howner, hdep, hhas, hval, garbage_parses, hg, happly,
        allowWithFallback, admittedPod] <;> decide

/-- Witness for C5: a concrete owned pod against a workload annotated
`garbage` and an empty, well-formed store is allowed unmodified. -/
theorem C5_garbage_annotation_allows_unmodified_witness :
    ∃ (reason : GoStr) (env' : KubeEnv),
      Handle (some ⟨none, 1, none, none⟩)
          (.ok (some ⟨gs "app", some [(strategyAnnKey, gs "garbage")]⟩))
          ⟨none, false, false, [], .ok, 0⟩ = (.allowed reason, env') ∧
      admittedPod ⟨none, 1, none, none⟩
          (Handle (some ⟨none, 1, none, none⟩)
            (.ok (some ⟨gs "app", some [(strategyAnnKey, gs "garbage")]⟩))
            ⟨none, false, false, [], .ok, 0⟩).1 = ⟨none, 1, none, none⟩ :=
  C5_garbage_annotation_allows_unmodified ⟨none, 1, none, none⟩
    ⟨gs "app", some [(strategyAnnKey, gs "garbage")]⟩ ⟨none, false, false, [], .ok, 0⟩
    [(strategyAnnKey, gs "garbage")]
    (by intro st h; simp at h) (by decide) (by decide) rfl (by decide) (by decide)

/-- Counterexample for C5 as stated: on the same concrete input the response
is an allow whose admitted pod carries NO `fallback-mode=true` annotation
(the allow carries no patch at all); the claim's requirement that the pod
carry `fallback-mode=true` fails. Note `garbage` is not even a parse error:
it parses to a weight-0 rule and the failure arises later, in the decision
engine, answered by allowWithFallback, which never annotates the pod. -/
theorem C5_no_fallback_annotation :
    (Handle (some ⟨none, 1, none, none⟩)
        (.ok (some ⟨gs "app", some [(strategyAnnKey, gs "garbage")]⟩))
        ⟨none, false, false, [], .ok, 0⟩).1 =
      .allowed (gs "SmartScheduler fallback: failed to apply placement strategy") ∧
    mapHas ((admittedPod ⟨none, 1, none, none⟩
        (Handle (some ⟨none, 1, none, none⟩)
          (.ok (some ⟨gs "app", some [(strategyAnnKey, gs "garbage")]⟩))
          ⟨none, false, false, [], .ok, 0⟩).1).annotations.getD [])
      (gs "smart-scheduler.io/fallback-mode") = false := by
  refine ⟨by decide, by decide⟩
